import Mathlib

/-!
# Verification of the `jser` JSON serialization library

A shallow embedding, in Lean 4, of the core of `jser.c`: the descriptor
data model, the overflow-checked integer codec, the base64 codec, the
bounds-checked output writer with its dry-run mode, the recursive
serializer, the token-driven binder (deserializer), and the tree-copy
utility.  Machine integers are modelled as `Nat`/`Int` with explicit
`% 2 ^ 64` where the C code can wrap; byte strings are `List Nat`;
fallible C functions returning `int` status codes are modelled as
functions returning the status together with the updated state they
would have written through their pointer arguments.

The external tokenizer (`jsmn.h`) is not part of the sources; it is
modelled from the specification's interface contract (flat pre-order
token array with kind, byte span and child count, with distinct error
classes for token exhaustion, invalid syntax and incomplete input).
-/

namespace Jser

/-! ## Error codes (`jsonify_error_e`) -/

def JSER_OK : Int := 0
def JSER_ERR_UNKNOWN : Int := -1
def JSER_ERR_DEPTH : Int := -2
def JSER_ERR_BASE64 : Int := -3
def JSER_ERR_SPACE : Int := -4
def JSER_ERR_DISABLED : Int := -5
def JSER_ERR_PARSE : Int := -6
def JSER_ERR_MORE_DAT : Int := -7
def JSER_ERR_TYPE : Int := -8
def JSER_ERR_NUMBER : Int := -9
def JSER_ERR_VERSION : Int := -10
def JSER_ERR_CONFIG : Int := -11
def JSER_ERR_LENGTH : Int := -12

/-! ## Build-time feature flags (default values from `jser.c`) -/

def JSER_ENABLE_ESCAPE : Bool := true
def JSER_ENABLE_USED_SET : Bool := true
def JSER_MAX_DEPTH : Nat := 0

/-- `2 ^ 64`, the modulus of `uint64_t`/`size_t` arithmetic. -/
def U64 : Nat := 18446744073709551616

/-- `SIZE_MAX`. -/
def SIZE_MAX : Nat := U64 - 1

/-- Two's-complement wrap of an integer into the `int64_t` range. -/
def wrap64s (x : Int) : Int := (x + 9223372036854775808) % (18446744073709551616 : Int) - 9223372036854775808

/-! ## Integer codec (`u64_to_str`, `i64_to_str`, `digit`, `str_to_u64`, `str_to_i64`) -/

/-- The digit table `"0123456789ABCDEF"` as bytes. -/
def digitTable : List Nat := [48, 49, 50, 51, 52, 53, 54, 55, 56, 57, 65, 66, 67, 68, 69, 70]

/-- One digit character, `q["0123456789ABCDEF"]`. -/
def digch (q : Nat) : Nat := digitTable.getD q 0

/-- The do-while loop of `u64_to_str`: digits of `u`, least significant
first.  The C code asserts `2 ≤ base ≤ 16`; the base is clamped into that
range (outside it the C behaviour is undefined).  The loop runs at most
once per digit; an explicit iteration bound of 65 exceeds the 64 digits a
`uint64_t` can have in any base, so for every representable value the bound
is never reached. -/
def u64_digits_go (bs : Nat) : Nat → Nat → List Nat
  | 0, _ => []
  | fuel + 1, u =>
    if u / bs = 0 then [digch (u % bs)]
    else digch (u % bs) :: u64_digits_go bs fuel (u / bs)

def u64_digits (u base : Nat) : List Nat :=
  u64_digits_go (max 2 (min base 16)) 65 u

/-- `u64_to_str`: digits accumulated least-significant-first, then reversed. -/
def u64_to_str (u base : Nat) : List Nat := (u64_digits u base).reverse

/-- `i64_to_str`: a leading `'-'` then the magnitude via `u64_to_str`.  The C
code negates `s` in `int64_t` (wrapping at the minimum value) and then passes
it to the `uint64_t` parameter (reduction mod `2 ^ 64`); both conversions are
modelled explicitly. -/
def i64_to_str (s : Int) (base : Nat) : List Nat :=
  if s < 0 then
    45 :: u64_to_str ((wrap64s (-s)) % (U64 : Int)).toNat base
  else
    u64_to_str ((s % (U64 : Int)).toNat) base

/-- `digit`: the value of character `ch` in the given base, or `-1`. -/
def digit (ch : Nat) (base : Nat) : Int :=
  let r : Int := -1
  let r := if 48 ≤ ch ∧ ch ≤ 57 then (ch : Int) - 48 else r
  let r := if 97 ≤ ch ∧ ch ≤ 102 then (ch : Int) - 97 + 10 else r
  let r := if 65 ≤ ch ∧ ch ≤ 70 then (ch : Int) - 65 + 10 else r
  if r ≥ (base : Int) then -1 else r

/-- The accumulation loop of `str_to_u64`, with the two wraparound checks. -/
def str_to_u64_go (base : Nat) (t : Nat) : List Nat → Int × Nat
  | [] => (0, t)
  | c :: rest =>
    let dg := digit c base
    if dg < 0 then (-1, 0)
    else
      let nt1 := t * base % U64
      if nt1 < t then (-1, 0)
      else
        let nt2 := (nt1 + dg.toNat) % U64
        if nt2 < t then (-1, 0)
        else str_to_u64_go base nt2 rest

/-- `str_to_u64 (str, length, base, out)`: returns the status and the value
stored through `out` (the C code stores `0` through `out` on entry and the
final accumulator only on success). -/
def str_to_u64 (str : List Nat) (base : Nat) : Int × Nat :=
  if str.length = 0 then (-1, 0)
  else str_to_u64_go base 0 str

/-- `str_to_i64 (str, length, base, out)`: `out` is the value the caller's
variable holds before the call; the C code writes through `out` only on
success, so on failure the returned value is the unchanged `out`. -/
def str_to_i64 (str : List Nat) (base : Nat) (out : Int) : Int × Int :=
  let negative : Bool := decide (0 < str.length ∧ str.getD 0 0 = 45)
  let (r, t) := str_to_u64 (if negative then str.drop 1 else str) base
  if r < 0 then (-1, out)
  else
    let o : Int := wrap64s (t : Int)
    let o := if negative then wrap64s (-o) else o
    (0, o)

/-! ## Base64 codec -/

/-- `base64_decoded_size`. -/
def base64_decoded_size (sz : Nat) : Nat := sz * 3 / 4

/-- `base64_encoded_size`. -/
def base64_encoded_size (sz : Nat) : Nat := 4 * ((sz + 2) / 3)

/-- The 256-entry classification table `d` of `jser_base64_decode`
(`0`–`63` digit value, `64` whitespace, `65` pad, `66` invalid). -/
def b64dtable : List Nat :=
  [66, 66, 66, 66, 66, 66, 66, 66, 66, 66, 64, 66, 66, 66, 66, 66, 66, 66, 66, 66, 66, 66, 66, 66, 66,
   66, 66, 66, 66, 66, 66, 66, 66, 66, 66, 66, 66, 66, 66, 66, 66, 66, 66, 62, 66, 66, 66, 63, 52, 53,
   54, 55, 56, 57, 58, 59, 60, 61, 66, 66, 66, 65, 66, 66, 66, 0, 1, 2, 3, 4, 5, 6, 7, 8, 9,
   10, 11, 12, 13, 14, 15, 16, 17, 18, 19, 20, 21, 22, 23, 24, 25, 66, 66, 66, 66, 66, 66, 26, 27, 28,
   29, 30, 31, 32, 33, 34, 35, 36, 37, 38, 39, 40, 41, 42, 43, 44, 45, 46, 47, 48, 49, 50, 51, 66, 66,
   66, 66, 66, 66, 66, 66, 66, 66, 66, 66, 66, 66, 66, 66, 66, 66, 66, 66, 66, 66, 66, 66, 66, 66, 66,
   66, 66, 66, 66, 66, 66, 66, 66, 66, 66, 66, 66, 66, 66, 66, 66, 66, 66, 66, 66, 66, 66, 66, 66, 66,
   66, 66, 66, 66, 66, 66, 66, 66, 66, 66, 66, 66, 66, 66, 66, 66, 66, 66, 66, 66, 66, 66, 66, 66, 66,
   66, 66, 66, 66, 66, 66, 66, 66, 66, 66, 66, 66, 66, 66, 66, 66, 66, 66, 66, 66, 66, 66, 66, 66, 66,
   66, 66, 66, 66, 66, 66, 66, 66, 66, 66, 66, 66, 66, 66, 66, 66, 66, 66, 66, 66, 66, 66, 66, 66, 66,
   66, 66, 66, 66, 66, 66]

/-- The tail of `jser_base64_decode` after the character loop: emit the final
partial group.  `out` is the list of bytes already emitted. -/
def b64dec_fin (olen : Nat) (iter : Nat) (buf : Nat) (len : Nat) (out : List Nat) : Int × List Nat × Nat :=
  if iter = 3 then
    if len + 2 > olen then (-1, out, olen)
    else (0, out ++ [buf / 1024 % 256, buf / 4 % 256], len + 2)
  else if iter = 2 then
    if len + 1 > olen then (-1, out, olen)
    else (0, out ++ [buf / 16 % 256], len + 1)
  else (0, out, len)

/-- The character loop of `jser_base64_decode`. -/
def b64dec_go (olen : Nat) (iter : Nat) (buf : Nat) (len : Nat) (out : List Nat) :
    List Nat → Int × List Nat × Nat
  | [] => b64dec_fin olen iter buf len out
  | c :: rest =>
    let cl := b64dtable.getD c 66
    if cl = 64 then b64dec_go olen iter buf len out rest
    else if cl = 66 then (-1, out, olen)
    else if cl = 65 then b64dec_fin olen iter buf len out
    else
      let buf' := (buf * 64 + cl) % 4294967296
      if iter + 1 = 4 then
        if len + 3 > olen then (-1, out, olen)
        else b64dec_go olen 0 0 (len + 3)
          (out ++ [buf' / 65536 % 256, buf' / 256 % 256, buf' % 256]) rest
      else b64dec_go olen (iter + 1) buf' len out rest

/-- `jser_base64_decode (ibuf, ilen, obuf, olen)`: returns the status, the
bytes written to `obuf` (possibly a partial prefix when the call fails), and
the value left in `*olen` (updated to the decoded length only on success). -/
def jser_base64_decode (ibuf : List Nat) (olen : Nat) : Int × List Nat × Nat :=
  b64dec_go olen 0 0 0 [] ibuf

/-- The base64 alphabet `lookup` of `jser_base64_encode`. -/
def b64lookup : List Nat :=
  [65, 66, 67, 68, 69, 70, 71, 72, 73, 74, 75, 76, 77, 78, 79, 80,
   81, 82, 83, 84, 85, 86, 87, 88, 89, 90, 97, 98, 99, 100, 101, 102,
   103, 104, 105, 106, 107, 108, 109, 110, 111, 112, 113, 114, 115, 116, 117, 118,
   119, 120, 121, 122, 48, 49, 50, 51, 52, 53, 54, 55, 56, 57, 43, 47]

/-- `mod_table` of `jser_base64_encode`. -/
def b64mod_table : List Nat := [0, 2, 1]

/-- One output group of `jser_base64_encode` from up to three input bytes. -/
def b64enc_group (a b c : Nat) : List Nat :=
  let triple := a % 256 * 65536 + b % 256 * 256 + c % 256
  [b64lookup.getD (triple / 262144 % 64) 0,
   b64lookup.getD (triple / 4096 % 64) 0,
   b64lookup.getD (triple / 64 % 64) 0,
   b64lookup.getD (triple % 64) 0]

/-- The encoding loop of `jser_base64_encode` over the input bytes (the C
loop reads `0` for the second and third byte of a final short group). -/
def b64enc_go : List Nat → List Nat
  | [] => []
  | [a] => b64enc_group a 0 0
  | [a, b] => b64enc_group a b 0
  | a :: b :: c :: rest => b64enc_group a b c ++ b64enc_go rest

/-- `take` that pads with a default beyond the end of the list (the C code
would read `n` bytes from the source region regardless of our model list). -/
def padTake (n : Nat) (l : List Nat) : List Nat := l.take n ++ List.replicate (n - l.length) 0

/-- `jser_base64_encode (ibuf, ilen, obuf, olen)`: returns the status, the
bytes written to `obuf`, and the value left in `*olen`. -/
def jser_base64_encode (ibuf : List Nat) (ilen : Nat) (olen : Nat) : Int × List Nat × Nat :=
  let osz := base64_encoded_size ilen
  if olen < osz then (-1, [], olen)
  else
    let raw := b64enc_go (padTake ilen ibuf)
    let pads := b64mod_table.getD (ilen % 3) 0
    (0, raw.take (osz - pads) ++ List.replicate pads 61, osz)

/-! ## Descriptor data model (`jser_type_e`, `jser_buffer_t`, `jser_type_u`, `struct jser`) -/

/-- `jser_type_e`. -/
inductive JserType where
  | LONG | ULONG | BOOL | ASCIIZ | BUFFER | OBJECT | ARRAY
deriving DecidableEq, Repr

/-- `jser_buffer_t`: a caller-owned byte region of `length` bytes, of which
`used` are occupied.  `buf` models the region's content; for the output
buffer of the serializer it holds exactly the bytes written so far (the C
code writes byte `used` and then increments `used`, so writes are
sequential). -/
structure JserBuffer where
  length : Nat
  used : Nat
  buf : List Nat
deriving DecidableEq, Repr

mutual
/-- `jser_type_u`: the union of data pointers.  A single constructor per
union member; `null` represents a null pointer (the C code checks
`e->data.lu == NULL`).  Scalar members point at a single value or, for
`is_array` descriptors, at a packed run of values — modelled as a list
indexed by the C index. -/
inductive JserData where
  | null : JserData
  | ld : List Int → JserData
  | lu : List Nat → JserData
  | bl : List Bool → JserData
  | asciiz : List Nat → JserData
  | buf : List JserBuffer → JserData
  | tree : List Jser → JserData

/-- `struct jser`: attribute bytes, `length`, `used`, type tag, data
reference, `is_array` flag. -/
inductive Jser where
  | mk : List Nat → Nat → Nat → JserType → JserData → Bool → Jser
end

def Jser.attr : Jser → List Nat | .mk a _ _ _ _ _ => a
def Jser.length : Jser → Nat | .mk _ l _ _ _ _ => l
def Jser.used : Jser → Nat | .mk _ _ u _ _ _ => u
def Jser.type : Jser → JserType | .mk _ _ _ t _ _ => t
def Jser.data : Jser → JserData | .mk _ _ _ _ d _ => d
def Jser.is_array : Jser → Bool | .mk _ _ _ _ _ f => f

/-- Is the data pointer null (`e->data.lu == NULL`)? -/
def JserData.isNull : JserData → Bool
  | .null => true
  | _ => false

/-- Read `u->ld[index]`.  A read through a union member that was not the one
stored is unspecified in C; it is modelled as the default value `0`.  The
stored machine value is an `int64_t`; `wrap64s` models that range. -/
def JserData.getLd (d : JserData) (i : Nat) : Int :=
  match d with
  | .ld vs => wrap64s (vs.getD i 0)
  | _ => 0

/-- Read `u->lu[index]` (a `uint64_t`-ranged value). -/
def JserData.getLu (d : JserData) (i : Nat) : Nat :=
  match d with
  | .lu vs => vs.getD i 0 % U64
  | _ => 0

/-- Read `u->b[index]`. -/
def JserData.getB (d : JserData) (i : Nat) : Bool :=
  match d with
  | .bl vs => vs.getD i false
  | _ => false

/-- Read the NUL-terminated string `u->asciiz` (content bytes, NUL-free). -/
def JserData.getAsciiz : JserData → List Nat
  | .asciiz s => s
  | _ => []

/-- Read `u->buf[index]`. -/
def JserData.getBuf (d : JserData) (i : Nat) : JserBuffer :=
  match d with
  | .buf bs => bs.getD i ⟨0, 0, []⟩
  | _ => ⟨0, 0, []⟩

/-- Read `u->jser` / `u->array` as a child-descriptor array. -/
def Jser.children (e : Jser) : List Jser :=
  match e.data with
  | .tree l => l
  | _ => []

/-! ## Output writer (`jser_opts_t`, `on_error`, `add_ch`, `addstr`, ...) -/

/-- `jser_opts_t`. -/
structure SOpts where
  max : Nat
  error : Int
  pretty : Bool
  dry_run : Bool
deriving DecidableEq, Repr

/-- `on_error`: latch the first error and return the (negative) code. -/
def on_error (sp : SOpts) (error : Int) : Int × SOpts :=
  (error, { sp with error := if sp.error ≠ 0 then sp.error else error })

/-- The result of a writer/serializer call: status, options (error latch),
output buffer. -/
abbrev SRes := Int × SOpts × JserBuffer

/-- `if (f(...) < 0) return -1;` sequencing. -/
def seqLt (x : SRes) (f : SOpts → JserBuffer → SRes) : SRes :=
  match x with
  | (r, sp, b) => if r < 0 then (-1, sp, b) else f sp b

/-- `if (f(...)) return -1;` sequencing. -/
def seqNe (x : SRes) (f : SOpts → JserBuffer → SRes) : SRes :=
  match x with
  | (r, sp, b) => if r ≠ 0 then (-1, sp, b) else f sp b

/-- `if (r != 0) return r;` sequencing (the element loop of `jsonify`
propagates its own return value). -/
def seqTail (x : SRes) (f : SOpts → JserBuffer → SRes) : SRes :=
  match x with
  | (r, sp, b) => if r ≠ 0 then (r, sp, b) else f sp b

/-- `add_ch`: the single bounds-checked byte-append primitive; in dry-run
mode the byte is not written but `used` still advances. -/
def add_ch (sp : SOpts) (b : JserBuffer) (ch : Nat) : SRes :=
  if 1 + b.used > b.length then
    let (r, sp') := on_error sp JSER_ERR_SPACE
    (r, sp', b)
  else
    (0, sp, { b with used := b.used + 1,
                     buf := if sp.dry_run then b.buf else b.buf ++ [ch % 256] })

/-- `addescaped`. -/
def addescaped (sp : SOpts) (b : JserBuffer) (esc : Nat) : SRes :=
  seqLt (add_ch sp b 92) fun sp b =>
  seqLt (add_ch sp b esc) fun sp b => (0, sp, b)

/-- One character of the escaping `addstr` loop: the switch over the
escapable characters. -/
def addstr_esc_step (sp : SOpts) (b : JserBuffer) (ch : Nat) : SRes :=
  if ch = 8 then addescaped sp b 98
  else if ch = 12 then addescaped sp b 102
  else if ch = 10 then addescaped sp b 110
  else if ch = 13 then addescaped sp b 114
  else if ch = 9 then addescaped sp b 116
  else if ch = 92 ∨ ch = 34 then addescaped sp b ch
  else add_ch sp b ch

/-- The character loop of `addstr` in the escaping build. -/
def addstr_esc (sp : SOpts) (b : JserBuffer) : List Nat → SRes
  | [] => (0, sp, b)
  | ch :: rest =>
    seqLt (addstr_esc_step sp b ch) fun sp b =>
    addstr_esc sp b rest

/-- `addstr`: append a string, escaping when `JSER_ENABLE_ESCAPE` (the
default build), else a bounds-checked raw copy. -/
def addstr (sp : SOpts) (b : JserBuffer) (str : List Nat) : SRes :=
  if JSER_ENABLE_ESCAPE then addstr_esc sp b str
  else
    let slen := str.length
    if slen + b.used > b.length then
      let (r, sp') := on_error sp JSER_ERR_SPACE
      (r, sp', b)
    else
      (0, sp, { b with used := b.used + slen,
                       buf := if sp.dry_run then b.buf else b.buf ++ str.map (· % 256) })

/-- `add_quote`. -/
def add_quote (sp : SOpts) (b : JserBuffer) (quoteme : List Nat) : SRes :=
  seqLt (add_ch sp b 34) fun sp b =>
  seqLt (addstr sp b quoteme) fun sp b =>
  seqLt (add_ch sp b 34) fun sp b => (0, sp, b)

/-- `add_attr`. -/
def add_attr (sp : SOpts) (b : JserBuffer) (attr : List Nat) : SRes :=
  seqLt (add_quote sp b attr) fun sp b =>
  seqLt (add_ch sp b 58) fun sp b => (0, sp, b)

/-- The nested loops of `add_indent` (`JSER_PRETTY_STRING` is `"\t"`). -/
def add_indent_go (sp : SOpts) (b : JserBuffer) : Nat → SRes
  | 0 => (0, sp, b)
  | n + 1 =>
    seqLt (add_ch sp b 9) fun sp b => add_indent_go sp b n

/-- `add_indent`. -/
def add_indent (sp : SOpts) (b : JserBuffer) (count : Nat) : SRes :=
  if sp.pretty = false then (0, sp, b) else add_indent_go sp b count

/-- `add_space`. -/
def add_space (sp : SOpts) (b : JserBuffer) : SRes :=
  if sp.pretty = false then (0, sp, b) else add_ch sp b 32

/-- `add_newline`. -/
def add_newline (sp : SOpts) (b : JserBuffer) : SRes :=
  if sp.pretty = false then (0, sp, b) else add_ch sp b 10

/-- `add_i64`. -/
def add_i64 (sp : SOpts) (b : JserBuffer) (ld : Int) : SRes :=
  seqLt (addstr sp b (i64_to_str ld 10)) fun sp b => (0, sp, b)

/-- `add_u64`. -/
def add_u64 (sp : SOpts) (b : JserBuffer) (lu : Nat) : SRes :=
  seqLt (addstr sp b (u64_to_str lu 10)) fun sp b => (0, sp, b)

/-- `add_bool`. -/
def add_bool (sp : SOpts) (b : JserBuffer) (tf : Bool) : SRes :=
  seqLt (addstr sp b (if tf then [116, 114, 117, 101] else [102, 97, 108, 115, 101])) fun sp b =>
  (0, sp, b)

/-- The body of `add_buffer` between the space pre-check and the closing
quote: in a wet run with a nonempty buffer region, base64-encode the
`used` bytes into the output at `used` (the declared output capacity is
the whole buffer length, as in the C); advance `used` by the encoded size
of the *occupied* count in every branch. -/
def add_buffer_step (sp : SOpts) (b : JserBuffer) (bufv : JserBuffer) : Int × JserBuffer :=
  if sp.dry_run = false then
    if bufv.length ≠ 0 then
      match jser_base64_encode bufv.buf bufv.used b.length with
      | (st, written, _) =>
        if st < 0 then (-1, b)
        else (0, { b with buf := b.buf ++ written,
                          used := b.used + base64_encoded_size bufv.used })
    else (0, { b with used := b.used + base64_encoded_size bufv.used })
  else (0, { b with used := b.used + base64_encoded_size bufv.used })

/-- The body of `add_buffer` after the opening quote: space pre-check
against the encoded size of the buffer's *capacity*, the encoding step,
closing quote. -/
def add_buffer_rest (sp : SOpts) (b : JserBuffer) (bufv : JserBuffer) : SRes :=
  if b.length - b.used < base64_encoded_size bufv.length then
    let (r, sp') := on_error sp JSER_ERR_SPACE
    (r, sp', b)
  else
    match add_buffer_step sp b bufv with
    | (st, b) =>
      if st < 0 then
        let (r, sp') := on_error sp JSER_ERR_BASE64
        (r, sp', b)
      else
        seqLt (add_ch sp b 34) fun sp b => (0, sp, b)

/-- `add_buffer`: quote, space pre-check against the encoded size of the
buffer's *capacity*, base64-encode the `used` bytes (space accounted by the
encoded size of `used`), closing quote. -/
def add_buffer (sp : SOpts) (b : JserBuffer) (bufv : JserBuffer) : SRes :=
  seqLt (add_ch sp b 34) fun sp b => add_buffer_rest sp b bufv

/-- `add_value`: dispatch on the semantic type, reading `data` at `index`. -/
def add_value (sp : SOpts) (b : JserBuffer) (t : JserType) (u : JserData) (index : Nat) : SRes :=
  match t with
  | .LONG => seqLt (add_i64 sp b (u.getLd index)) fun sp b => (0, sp, b)
  | .ULONG => seqLt (add_u64 sp b (u.getLu index)) fun sp b => (0, sp, b)
  | .BOOL => seqLt (add_bool sp b (u.getB index)) fun sp b => (0, sp, b)
  | .ASCIIZ =>
    if index ≠ 0 then
      let (r, sp') := on_error sp JSER_ERR_CONFIG
      (r, sp', b)
    else
      seqLt (add_quote sp b u.getAsciiz) fun sp b => (0, sp, b)
  | .BUFFER => seqLt (add_buffer sp b (u.getBuf index)) fun sp b => (0, sp, b)
  | _ =>
    let (r, sp') := on_error sp JSER_ERR_TYPE
    (r, sp', b)

/-- The `is_array` loop of `addj`: emit `used` packed values, comma
separated.  `n` counts the remaining iterations (`used - i`), making the
loop structurally recursive. -/
def addj_arr_go (sp : SOpts) (b : JserBuffer) (t : JserType) (u : JserData) (used : Nat) (i : Nat) : Nat → SRes
  | 0 => (0, sp, b)
  | n + 1 =>
    let last : Bool := i == used - 1
    seqLt (add_value sp b t u i) fun sp b =>
    seqLt (if last then (0, sp, b) else add_ch sp b 44) fun sp b =>
    addj_arr_go sp b t u used (i + 1) n

def addj_arr (sp : SOpts) (b : JserBuffer) (t : JserType) (u : JserData) (used : Nat) : SRes :=
  addj_arr_go sp b t u used 0 used

/-! ## Serializer (`addj`, `jsonify`).

The mutual recursion of the C code is modelled with an explicit fuel
parameter standing for the (in C, unbounded) recursion stack; running out
of fuel is reported as a depth error.  Entry points supply fuel larger
than the recursion can consume, and theorems that hypothesise a successful
run are unaffected by the fuel bound. -/

mutual

/-- `addj`: emit one descriptor's value (container types recurse). -/
def addj (fuel : Nat) (sp : SOpts) (b : JserBuffer) (e : Jser) (depth : Nat) : SRes :=
  match fuel with
  | 0 =>
    let (r, sp') := on_error sp JSER_ERR_DEPTH
    (r, sp', b)
  | fuel + 1 =>
    if e.type = JserType.OBJECT then
      if e.is_array then
        let (r, sp') := on_error sp JSER_ERR_CONFIG
        (r, sp', b)
      else
        seqNe (add_newline sp b) fun sp b =>
        seqLt (jsonify fuel sp e.children e.length b false (depth + 1)) fun sp b => (0, sp, b)
    else if e.type = JserType.ARRAY then
      seqNe (add_newline sp b) fun sp b =>
      seqLt (jsonify fuel sp e.children e.length b true (depth + 1)) fun sp b => (0, sp, b)
    else if e.is_array then
      seqLt (add_ch sp b 91) fun sp b =>
      seqLt (addj_arr sp b e.type e.data e.used) fun sp b =>
      seqLt (add_ch sp b 93) fun sp b => (0, sp, b)
    else
      seqLt (add_value sp b e.type e.data 0) fun sp b => (0, sp, b)
termination_by structural fuel

/-- The element loop of `jsonify`. -/
def jsonify_go (fuel : Nat) (sp : SOpts) (b : JserBuffer) (l : List Jser) (is_arr : Bool) (depth : Nat) : SRes :=
  match fuel with
  | 0 =>
    let (r, sp') := on_error sp JSER_ERR_DEPTH
    (r, sp', b)
  | fuel + 1 =>
    match l with
    | [] => (0, sp, b)
    | e :: rest =>
      let last : Bool := rest.isEmpty
      if e.data.isNull then
        let (r, sp') := on_error sp JSER_ERR_CONFIG
        (r, sp', b)
      else
        seqNe (add_indent sp b (depth + 1)) fun sp b =>
        seqLt (if is_arr then (0, sp, b) else
                 seqLt (add_attr sp b e.attr) fun sp b =>
                 seqNe (add_space sp b) fun sp b => (0, sp, b)) fun sp b =>
        seqLt (addj fuel sp b e depth) fun sp b =>
        seqLt (if last then (0, sp, b) else add_ch sp b 44) fun sp b =>
        seqNe (add_newline sp b) fun sp b =>
        jsonify_go fuel sp b rest is_arr depth
termination_by structural fuel

/-- `jsonify`: depth check, container open, element loop, container close. -/
def jsonify (fuel : Nat) (sp : SOpts) (j : List Jser) (jlen : Nat) (b : JserBuffer) (is_arr : Bool) (depth : Nat) : SRes :=
  match fuel with
  | 0 =>
    let (r, sp') := on_error sp JSER_ERR_DEPTH
    (r, sp', b)
  | fuel + 1 =>
    if sp.max ≠ 0 ∧ depth > sp.max then
      let (r, sp') := on_error sp JSER_ERR_DEPTH
      (r, sp', b)
    else
      seqNe (add_indent sp b depth) fun sp b =>
      seqLt (add_ch sp b (if is_arr then 91 else 123)) fun sp b =>
      seqNe (add_newline sp b) fun sp b =>
      seqTail (jsonify_go fuel sp b (j.take jlen) is_arr depth) fun sp b =>
      seqNe (add_indent sp b depth) fun sp b =>
      seqLt (add_ch sp b (if is_arr then 93 else 125)) fun sp b => (0, sp, b)
termination_by structural fuel

end

/-- `jser_serialize_to_buffer`.  `fuel` bounds the modelled recursion (the
C recursion is bounded only by the machine stack); every theorem below
either quantifies over `fuel` or supplies one the run cannot exhaust. -/
def jser_serialize_to_buffer (fuel : Nat) (j : List Jser) (jlen : Nat) (pretty : Bool) (b : JserBuffer) : Int × JserBuffer :=
  let sp : SOpts := ⟨JSER_MAX_DEPTH, JSER_OK, pretty, false⟩
  match jsonify fuel sp j jlen b false 0 with
  | (r, sp, b) => (if r < 0 then sp.error else JSER_OK, b)

/-- `jser_serialized_length`: the dry run over an unbounded (`SIZE_MAX`)
buffer; `*sz` is zeroed, then set to `b.used` on success. -/
def jser_serialized_length (fuel : Nat) (j : List Jser) (jlen : Nat) (pretty : Bool) : Int × Nat :=
  let sp : SOpts := ⟨JSER_MAX_DEPTH, JSER_OK, pretty, true⟩
  let b : JserBuffer := ⟨SIZE_MAX, 0, []⟩
  match jsonify fuel sp j jlen b false 0 with
  | (r, sp', b') =>
    if r < 0 then (sp'.error, 0) else (0, b'.used)

/-- Write `written` over the front of the byte region `prior`. -/
def overlay (written prior : List Nat) : List Nat := written ++ prior.drop written.length

/-- `jser_serialize_to_asciiz`: serialize into the first `length - 1` bytes
of the destination region, then NUL-terminate; on failure store a NUL at
the first byte. -/
def jser_serialize_to_asciiz (fuel : Nat) (j : List Jser) (jlen : Nat) (pretty : Bool) (asciiz : List Nat) : Int × List Nat :=
  if asciiz.length < 1 then (-1, asciiz)
  else
    let sp : SOpts := ⟨JSER_MAX_DEPTH, JSER_OK, pretty, false⟩
    let b : JserBuffer := ⟨asciiz.length - 1, 0, []⟩
    match jsonify fuel sp j jlen b false 0 with
    | (r, sp', b') =>
      if r < 0 then (sp'.error, (overlay b'.buf asciiz).set 0 0)
      else (JSER_OK, overlay (b'.buf ++ [0]) asciiz)

/-! ## Tokens (`jsmntok_t`) -/

/-- `jsmntype_t`. -/
inductive JsmnType where
  | UNDEFINED | OBJECT | ARRAY | STRING | PRIMITIVE
deriving DecidableEq, Repr

/-- `jsmntok_t`: kind, byte span `[start, stop)` (the C field `end`), and
child count `size`.  A zeroed token (the token array is `memset` before
parsing) is `UNDEFINED` with all fields `0`. -/
structure Token where
  type : JsmnType
  start : Int
  stop : Int
  size : Nat
deriving DecidableEq, Repr

def token0 : Token := ⟨.UNDEFINED, 0, 0, 0⟩

/-- The bytes of a span `[start, start + len)` of the source text. -/
def span (json : List Nat) (start : Int) (len : Int) : List Nat :=
  (json.drop start.toNat).take len.toNat

/-! ## Binder (`find_element`, `distance`, `json_to_element`, `dejsonify`) -/

/-- The scan loop of `find_element`: first descriptor whose attribute has
the key token's length and bytes, as an index, else `-1`. -/
def find_element_go (json : List Nat) (t : Token) (l : Int) : List Jser → Nat → Int
  | [], _ => -1
  | e :: rest, i =>
    if (e.attr.length : Int) ≠ l then find_element_go json t l rest (i + 1)
    else if span json t.start l ≠ e.attr then find_element_go json t l rest (i + 1)
    else (i : Int)

/-- `find_element`. -/
def find_element (j : List Jser) (jlen : Nat) (json : List Nat) (t : Token) : Int :=
  find_element_go json t (t.stop - t.start) (j.take jlen) 0

mutual

/-- `distance`: the number of tokens a subtree spans, computed from token
kinds and `child_count`s.  The C recursion has no bound (`fuel` models the
stack; exhaustion yields the error result `-1`). -/
def distance (fuel : Nat) (t : List Token) (ts : Int) : Int :=
  match fuel with
  | 0 => -1
  | fuel + 1 =>
    if ts = 0 then -1
    else
      match (t.getD 0 token0).type with
      | .STRING => 1
      | .PRIMITIVE => 1
      | .OBJECT => dist_obj fuel t ts 1 1
      | .ARRAY => dist_arr fuel t ts 1 1
      | .UNDEFINED => -1
termination_by structural fuel

/-- The `JSMN_OBJECT` loop of `distance` (`i` steps by 2 over key/value
pairs, recursing into container values). -/
def dist_obj (fuel : Nat) (t : List Token) (ts : Int) (i : Int) (r : Int) : Int :=
  match fuel with
  | 0 => -1
  | fuel + 1 =>
    if i < ts then
      if (t.getD i.toNat token0).type ≠ .STRING then -1
      else if i + 1 ≥ ts then -1
      else
        let v := t.getD (i + 1).toNat token0
        if v.type = .OBJECT ∨ v.type = .ARRAY then
          let st := distance fuel (t.drop (i + 1).toNat) (v.size : Int)
          if st < 0 then -1
          else dist_obj fuel t ts (i + st + 2) (r + st + 1)
        else dist_obj fuel t ts (i + 2) (r + 2)
    else r
termination_by structural fuel

/-- The `JSMN_ARRAY` loop of `distance`. -/
def dist_arr (fuel : Nat) (t : List Token) (ts : Int) (i : Int) (r : Int) : Int :=
  match fuel with
  | 0 => -1
  | fuel + 1 =>
    if i < ts then
      let v := t.getD i.toNat token0
      if v.type = .OBJECT ∨ v.type = .ARRAY then
        let v1 := t.getD (i + 1).toNat token0
        let st := distance fuel (t.drop (i + 1).toNat) (v1.size : Int)
        if st < 0 then -1
        else dist_arr fuel t ts (i + st + 1) (r + st)
      else dist_arr fuel t ts (i + 1) r
    else r
termination_by structural fuel

end

/-- Write back the mutated child-descriptor array of a container (`C`
mutates through `e->data.jser`; with a non-container data pointer the write
would go through a type-confused pointer, which the model leaves
unrepresented). -/
def Jser.withChildren (e : Jser) (l : List Jser) : Jser :=
  match e with
  | .mk a ln u t d f =>
    match d with
    | .tree _ => .mk a ln u t (.tree l) f
    | _ => .mk a ln u t d f

def Jser.withUsed (e : Jser) (u : Nat) : Jser :=
  match e with
  | .mk a ln _ t d f => .mk a ln u t d f

/-- `*e->data.b = v`. -/
def Jser.setBool (e : Jser) (v : Bool) : Jser :=
  match e with
  | .mk a ln u t d f =>
    match d with
    | .bl vs => .mk a ln u t (.bl (vs.set 0 v)) f
    | _ => .mk a ln u t d f

/-- `*e->data.lu = v`. -/
def Jser.setLu (e : Jser) (v : Nat) : Jser :=
  match e with
  | .mk a ln u t d f =>
    match d with
    | .lu vs => .mk a ln u t (.lu (vs.set 0 v)) f
    | _ => .mk a ln u t d f

/-- `*e->data.ld = v`. -/
def Jser.setLd (e : Jser) (v : Int) : Jser :=
  match e with
  | .mk a ln u t d f =>
    match d with
    | .ld vs => .mk a ln u t (.ld (vs.set 0 v)) f
    | _ => .mk a ln u t d f

/-- `memcpy(e->data.asciiz, src, plen); e->data.asciiz[plen] = 0`. -/
def Jser.setAsciiz (e : Jser) (content : List Nat) : Jser :=
  match e with
  | .mk a ln u t d f =>
    match d with
    | .asciiz _ => .mk a ln u t (.asciiz content) f
    | _ => .mk a ln u t d f

/-- `*e->data.buf = v` (the buffer the descriptor points at). -/
def Jser.setBuf (e : Jser) (v : JserBuffer) : Jser :=
  match e with
  | .mk a ln u t d f =>
    match d with
    | .buf bs => .mk a ln u t (.buf (bs.set 0 v)) f
    | _ => .mk a ln u t d f

/-- Result of `json_to_element`: increment-or-error, error latch, the
mutated descriptor, and (ghost, not in the C) the list of array slot
indices the `JSMN_ARRAY` loop attempted to bind. -/
abbrev ERes := Int × SOpts × Jser × List Nat

/-- Result of `dejsonify`: consumed-count-or-error, error latch, the
mutated descriptor level, and (ghost, not in the C) the list of descriptor
indices at this level that a matched key was bound into. -/
abbrev DRes := Int × SOpts × List Jser × List Nat

mutual

/-- `json_to_element`: bind one value token (and its subtree) to one
descriptor. -/
def json_to_element (fuel : Nat) (sp : SOpts) (e : Jser) (token : List Token) (tokens : Nat) (json : List Nat) : ERes :=
  match fuel with
  | 0 =>
    let (r, sp') := on_error sp JSER_ERR_UNKNOWN
    (r, sp', e, [])
  | fuel + 1 =>
    let p := token.getD 0 token0
    let plen : Int := p.stop - p.start
    if plen < 0 then
      let (r, sp') := on_error sp JSER_ERR_UNKNOWN
      (r, sp', e, [])
    else
      match p.type with
      | .OBJECT =>
        match dejsonify fuel sp e.children e.used token (p.size * 2) json with
        | (increment, sp', children', _) =>
          let e' := e.withChildren children'
          if increment < 0 then (-1, sp', e', [])
          else (increment, sp', e', [])
      | .ARRAY =>
        if e.type ≠ JserType.ARRAY then (-1, sp, e, [])
        else
          let e := if JSER_ENABLE_USED_SET then e.withUsed 0 else e
          j2e_arr fuel sp e token tokens json 1 0 []
      | .STRING =>
        if e.type = JserType.BUFFER then
          let buf := e.data.getBuf 0
          let buf := { buf with used := 0 }
          let olen := buf.length
          match jser_base64_decode (span json p.start plen) olen with
          | (st, written, olen') =>
            let buf' := { buf with buf := overlay written buf.buf }
            if st ≠ 0 then
              let (r, sp') := on_error sp JSER_ERR_BASE64
              (r, sp', e.setBuf buf', [])
            else
              (1, sp, e.setBuf { buf' with used := olen' }, [])
        else if e.type = JserType.ASCIIZ then
          if e.is_array then
            let (r, sp') := on_error sp JSER_ERR_CONFIG
            (r, sp', e, [])
          else if e.length = 0 then
            let (r, sp') := on_error sp JSER_ERR_TYPE
            (r, sp', e, [])
          else if plen ≥ (e.length : Int) then
            let (r, sp') := on_error sp JSER_ERR_TYPE
            (r, sp', e, [])
          else
            (1, sp, e.setAsciiz (span json p.start plen), [])
        else
          let (r, sp') := on_error sp JSER_ERR_TYPE
          (r, sp', e, [])
      | .PRIMITIVE =>
        let c := json.getD p.start.toNat 0
        if c = 110 then
          let (r, sp') := on_error sp JSER_ERR_TYPE
          (r, sp', e, [])
        else if c = 116 then
          if e.type ≠ JserType.BOOL then
            let (r, sp') := on_error sp JSER_ERR_TYPE
            (r, sp', e, [])
          else if plen < 4 ∨ span json p.start 4 ≠ [116, 114, 117, 101] then
            let (r, sp') := on_error sp JSER_ERR_TYPE
            (r, sp', e, [])
          else (1, sp, e.setBool true, [])
        else if c = 102 then
          if e.type ≠ JserType.BOOL then
            let (r, sp') := on_error sp JSER_ERR_TYPE
            (r, sp', e, [])
          else if plen < 5 ∨ span json p.start 5 ≠ [102, 97, 108, 115, 101] then
            let (r, sp') := on_error sp JSER_ERR_TYPE
            (r, sp', e, [])
          else (1, sp, e.setBool false, [])
        else if c = 45 ∨ (48 ≤ c ∧ c ≤ 57) then
          if e.type = JserType.ULONG then
            match str_to_u64 (span json p.start plen) 10 with
            | (st, ud) =>
              if st < 0 then
                let (r, sp') := on_error sp JSER_ERR_NUMBER
                (r, sp', e, [])
              else (1, sp, e.setLu ud, [])
          else if e.type = JserType.LONG then
            match str_to_i64 (span json p.start plen) 10 (e.data.getLd 0) with
            | (st, ld) =>
              if st < 0 then
                let (r, sp') := on_error sp JSER_ERR_NUMBER
                (r, sp', e, [])
              else (1, sp, e.setLd ld, [])
          else
            let (r, sp') := on_error sp JSER_ERR_TYPE
            (r, sp', e, [])
        else
          let (r, sp') := on_error sp JSER_ERR_PARSE
          (r, sp', e, [])
      | .UNDEFINED => (0, sp, e, [])
termination_by structural fuel

/-- The `JSMN_ARRAY` loop of `json_to_element`: bind consecutive element
tokens into consecutive child slots.  The capacity check is `k > length`
(an element is still bound at `k = length`, one past the last slot — in C
an out-of-bounds write, modelled as a recorded but lost store). -/
def j2e_arr (fuel : Nat) (sp : SOpts) (e : Jser) (token : List Token) (tokens : Nat) (json : List Nat) (i : Nat) (k : Nat) (ghost : List Nat) : ERes :=
  match fuel with
  | 0 =>
    let (r, sp') := on_error sp JSER_ERR_UNKNOWN
    (r, sp', e, ghost)
  | fuel + 1 =>
    if i < tokens then
      if (k : Int) > (e.length : Int) then
        let (r, sp') := on_error sp JSER_ERR_SPACE
        (r, sp', e, ghost)
      else
        match json_to_element fuel sp (e.children.getD k (.mk [] 0 0 .LONG .null false)) (token.drop i) (tokens - i) json with
        | (r, sp', child', _) =>
          let e := e.withChildren (e.children.set k child')
          let ghost := ghost ++ [k]
          if r < 0 then (-1, sp', e, ghost)
          else if r = 0 then
            (i, sp', if JSER_ENABLE_USED_SET then e.withUsed k else e, ghost)
          else j2e_arr fuel sp' e token tokens json (i + r.toNat) (k + 1) ghost
    else
      ((i : Int), sp, if JSER_ENABLE_USED_SET then e.withUsed k else e, ghost)
termination_by structural fuel

/-- The key/value loop of `dejsonify` (`i` is the C loop variable; the
unknown-key skip adds `distance`'s result with `size_t` wraparound). -/
def dejsonify_go (fuel : Nat) (sp : SOpts) (j : List Jser) (jlen : Nat) (token : List Token) (tokens : Nat) (json : List Nat) (i : Nat) (ghost : List Nat) : DRes :=
  match fuel with
  | 0 =>
    let (r, sp') := on_error sp JSER_ERR_UNKNOWN
    (r, sp', j, ghost)
  | fuel + 1 =>
    if i < tokens then
      let t := token.getD i token0
      match t.type with
      | .UNDEFINED => (0, sp, j, ghost)
      | .STRING =>
        let element := find_element j jlen json t
        if element < 0 then
          if i + 1 ≥ tokens then (JSER_ERR_LENGTH, sp, j, ghost)
          else
            let st := distance fuel (token.drop i) (t.size : Int)
            let i' := (((i : Int) + st) % (U64 : Int)).toNat
            dejsonify_go fuel sp j jlen token tokens json (i' + 1) ghost
        else
          let e := j.getD element.toNat (.mk [] 0 0 .LONG .null false)
          match json_to_element fuel sp e (token.drop (i + 1)) (tokens - i) json with
          | (increment, sp', e', _) =>
            let j' := j.set element.toNat e'
            let ghost' := ghost ++ [element.toNat]
            if increment < 1 then
              let (r, sp'') := on_error sp' JSER_ERR_UNKNOWN
              (r, sp'', j', ghost')
            else dejsonify_go fuel sp' j' jlen token tokens json (i + increment.toNat + 1) ghost'
      | _ =>
        let (r, sp') := on_error sp JSER_ERR_UNKNOWN
        (r, sp', j, ghost)
    else ((i : Int), sp, j, ghost)
termination_by structural fuel

/-- `dejsonify`: bind a token stream (rooted at a container token) onto a
descriptor level. -/
def dejsonify (fuel : Nat) (sp : SOpts) (j : List Jser) (jlen : Nat) (token : List Token) (tokens : Nat) (json : List Nat) : DRes :=
  match fuel with
  | 0 =>
    let (r, sp') := on_error sp JSER_ERR_UNKNOWN
    (r, sp', j, [])
  | fuel + 1 =>
    let t0 := token.getD 0 token0
    if t0.type = JsmnType.UNDEFINED then (0, sp, j, [])
    else if t0.type ≠ JsmnType.OBJECT ∧ t0.type ≠ JsmnType.ARRAY then
      let (r, sp') := on_error sp JSER_ERR_PARSE
      (r, sp', j, [])
    else dejsonify_go fuel sp j jlen token tokens json 1 []
termination_by structural fuel

end

/-! ## The external tokenizer, modelled from the spec.

Modelled from the spec: `jsmn.h` (the JSON tokenizer) is not among the
sources; per the specification's interface contract it turns source text
and a caller-sized token array into a flat, pre-order token array with
kind, byte span and child count (objects count key/value pairs, arrays
count elements, a key string counts its one attached value), reporting
distinct failures for running out of token storage, invalid syntax, and
incomplete input. -/

inductive JsmnErr where
  | NOMEM | INVAL | PART
deriving DecidableEq, Repr

/-- JSON whitespace. -/
def jsonWs (c : Nat) : Bool := c = 32 ∨ c = 9 ∨ c = 10 ∨ c = 13

/-- Skip whitespace from `pos`. -/
def skipWs (fuel : Nat) (json : List Nat) (pos : Nat) : Nat :=
  match fuel with
  | 0 => pos
  | fuel + 1 =>
    if pos < json.length ∧ jsonWs (json.getD pos 0) then skipWs fuel json (pos + 1) else pos

/-- Scan a string body from `pos` to the index of its closing quote; a
backslash skips the next character; running out of input is incomplete
input. -/
def scanStr (fuel : Nat) (json : List Nat) (pos : Nat) : Except JsmnErr Nat :=
  match fuel with
  | 0 => .error .PART
  | fuel + 1 =>
    if pos ≥ json.length then .error .PART
    else
      let c := json.getD pos 0
      if c = 34 then .ok pos
      else if c = 92 then
        if pos + 1 ≥ json.length then .error .PART
        else scanStr fuel json (pos + 2)
      else scanStr fuel json (pos + 1)

/-- A byte that ends a primitive token. -/
def primEnd (c : Nat) : Bool := jsonWs c ∨ c = 44 ∨ c = 93 ∨ c = 125 ∨ c = 58

/-- Scan a primitive from `pos`; returns the exclusive end index. -/
def scanPrim (fuel : Nat) (json : List Nat) (pos : Nat) : Nat :=
  match fuel with
  | 0 => pos
  | fuel + 1 =>
    if pos ≥ json.length ∨ primEnd (json.getD pos 0) then pos
    else scanPrim fuel json (pos + 1)

mutual

/-- Tokenize one JSON value starting at `pos` (whitespace already
consumed by the caller): the value's tokens in pre-order and the position
after the value. -/
def tokVal (fuel : Nat) (json : List Nat) (pos : Nat) : Except JsmnErr (List Token × Nat) :=
  match fuel with
  | 0 => .error .PART
  | fuel + 1 =>
    if pos ≥ json.length then .error .PART
    else
      let c := json.getD pos 0
      if c = 123 then
        match tokPairs fuel json (skipWs fuel json (pos + 1)) [] 0 with
        | .error err => .error err
        | .ok (pairs, count, stop) =>
          .ok (⟨.OBJECT, (pos : Int), (stop : Int), count⟩ :: pairs, stop)
      else if c = 91 then
        match tokElems fuel json (skipWs fuel json (pos + 1)) [] 0 with
        | .error err => .error err
        | .ok (elems, count, stop) =>
          .ok (⟨.ARRAY, (pos : Int), (stop : Int), count⟩ :: elems, stop)
      else if c = 34 then
        match scanStr fuel json (pos + 1) with
        | .error err => .error err
        | .ok close => .ok ([⟨.STRING, (pos + 1 : Nat), (close : Nat), 0⟩], close + 1)
      else if c = 45 ∨ (48 ≤ c ∧ c ≤ 57) ∨ c = 116 ∨ c = 102 ∨ c = 110 then
        let stop := scanPrim fuel json pos
        if stop = pos then .error .INVAL
        else .ok ([⟨.PRIMITIVE, (pos : Nat), (stop : Nat), 0⟩], stop)
      else .error .INVAL
termination_by structural fuel

/-- Tokenize the key/value pairs of an object body from `pos`, returning
the pair tokens, the pair count, and the position after the closing
brace.  A comma before a pair is consumed when present (the modelled
tokenizer, like the non-strict external one, does not require it). -/
def tokPairs (fuel : Nat) (json : List Nat) (pos : Nat) (acc : List Token) (count : Nat) : Except JsmnErr (List Token × Nat × Nat) :=
  match fuel with
  | 0 => .error .PART
  | fuel + 1 =>
    if pos ≥ json.length then .error .PART
    else
      let c := json.getD pos 0
      if c = 125 then .ok (acc, count, pos + 1)
      else if c = 44 then tokPairs fuel json (skipWs fuel json (pos + 1)) acc count
      else if c = 34 then
        match scanStr fuel json (pos + 1) with
        | .error err => .error err
        | .ok close =>
          let key : Token := ⟨.STRING, (pos + 1 : Nat), (close : Nat), 1⟩
          let pos := skipWs fuel json (close + 1)
          if pos ≥ json.length then .error .PART
          else if json.getD pos 0 ≠ 58 then .error .INVAL
          else
            match tokVal fuel json (skipWs fuel json (pos + 1)) with
            | .error err => .error err
            | .ok (vtoks, pos') =>
              tokPairs fuel json (skipWs fuel json pos') (acc ++ key :: vtoks) (count + 1)
      else .error .INVAL
termination_by structural fuel

/-- Tokenize the elements of an array body from `pos`. -/
def tokElems (fuel : Nat) (json : List Nat) (pos : Nat) (acc : List Token) (count : Nat) : Except JsmnErr (List Token × Nat × Nat) :=
  match fuel with
  | 0 => .error .PART
  | fuel + 1 =>
    if pos ≥ json.length then .error .PART
    else
      let c := json.getD pos 0
      if c = 93 then .ok (acc, count, pos + 1)
      else if c = 44 then tokElems fuel json (skipWs fuel json (pos + 1)) acc count
      else
        match tokVal fuel json pos with
        | .error err => .error err
        | .ok (vtoks, pos') =>
          tokElems fuel json (skipWs fuel json pos') (acc ++ vtoks) (count + 1)
termination_by structural fuel

end

/-- Modelled from the spec: `jsmn_parse (json, length, tokens, num_tokens)`
over the (pre-zeroed) token array: tokenize one top-level value, demand
only trailing whitespace after it, fail with the out-of-storage error when
the result does not fit in `numTokens` slots, and leave the unused slots
zeroed. -/
def jsmn_parse (json : List Nat) (numTokens : Nat) : Except JsmnErr (List Token) :=
  let fuel := 2 * json.length + 16
  match tokVal fuel json (skipWs fuel json 0) with
  | .error err => .error err
  | .ok (toks, pos) =>
    if skipWs fuel json pos ≠ json.length then .error .INVAL
    else if toks.length > numTokens then .error .NOMEM
    else .ok (toks ++ List.replicate (numTokens - toks.length) token0)

/-- `jser_deserialize_from_buffer`: tokenize, map the tokenizer's failure
classes onto `jser` error codes, then bind.  The result carries the
mutated descriptors and (ghost) the top-level bound indices. -/
def jser_deserialize_from_buffer (fuel : Nat) (j : List Jser) (jlen : Nat) (numTokens : Nat) (b : JserBuffer) : Int × List Jser × List Nat :=
  match jsmn_parse (b.buf.take b.used) numTokens with
  | .error .NOMEM => (JSER_ERR_SPACE, j, [])
  | .error .INVAL => (JSER_ERR_PARSE, j, [])
  | .error .PART => (JSER_ERR_MORE_DAT, j, [])
  | .ok toks =>
    let sp : SOpts := ⟨JSER_MAX_DEPTH, 0, false, false⟩
    match dejsonify fuel sp j jlen toks numTokens b.buf with
    | (r, sp', j', ghost) =>
      (if sp'.error < 0 then sp'.error else r, j', ghost)

/-- `jser_deserialize_from_asciiz`. -/
def jser_deserialize_from_asciiz (fuel : Nat) (j : List Jser) (jlen : Nat) (numTokens : Nat) (asciiz : List Nat) : Int × List Jser × List Nat :=
  jser_deserialize_from_buffer fuel j jlen numTokens ⟨asciiz.length, asciiz.length, asciiz⟩

/-! ## Pool copy (`copy`, `jser_copy`) -/

/-- The default (junk) descriptor used for out-of-range reads. -/
def jser0 : Jser := .mk [] 0 0 .LONG .null false

mutual

/-- `copy`: deep-copy a descriptor run into the pool starting at local
index `0` of `&pool[off]`, bounded by `plen` *local* indices (the C passes
`plen` unchanged into recursive calls).  Container handling follows the C
exactly: the node is stored at `pool[off+k]`, the children are copied
starting at the same `&pool[k]`, the wraparound guard is written
`k < k + st`, and on a nonzero subtree the node's child pointer is
re-aimed at `&pool[k + 1]` (modelled as a snapshot of that region). -/
def copy (fuel : Nat) (src : List Jser) (slen : Nat) (pool : List Jser) (off : Nat) (plen : Nat) : Int × List Jser :=
  match fuel with
  | 0 => (-1, pool)
  | fuel + 1 => copy_go fuel (src.take slen) pool off plen 0
termination_by structural fuel

/-- The element loop of `copy` (`k` is the output cursor). -/
def copy_go (fuel : Nat) (l : List Jser) (pool : List Jser) (off : Nat) (plen : Nat) (k : Nat) : Int × List Jser :=
  match fuel with
  | 0 => (-1, pool)
  | fuel + 1 =>
    match l with
    | [] => ((k : Int), pool)
    | s :: rest =>
      if k ≥ plen then (-1, pool)
      else
        let pool := pool.set (off + k) s
        if s.type = JserType.OBJECT ∨ s.type = JserType.ARRAY then
          match copy fuel s.children s.used pool (off + k) plen with
          | (st, pool) =>
            if st < 0 then (-1, pool)
            else if (k : Int) < (k : Int) + st then (-1, pool)
            else
              let pool :=
                if st ≠ 0 then
                  let node := pool.getD (off + k) jser0
                  pool.set (off + k)
                    (node.withChildren ((pool.drop (off + k + 1)).take node.used))
                else pool
              copy_go fuel rest pool off plen (k + st.toNat)
        else copy_go fuel rest pool off plen (k + 1)
termination_by structural fuel

end

/-- `jser_copy`: returns the status, the pool, and the value left in
`*plen` (the allocated count on success, zero on failure). -/
def jser_copy (fuel : Nat) (src : List Jser) (slen : Nat) (pool : List Jser) (plen : Nat) : Int × List Jser × Nat :=
  match copy fuel src slen pool 0 plen with
  | (st, pool') =>
    if st < 0 then (-1, pool', 0)
    else (0, pool', st.toNat)

/-! ## Helpers for concrete instances -/

/-- The bytes of an ASCII string. -/
def strBytes (s : String) : List Nat := s.data.map Char.toNat

/-- A `MK_LONG`-style scalar descriptor. -/
def mkLong (n : String) (v : Int) : Jser := .mk (strBytes n) 0 0 .LONG (.ld [v]) false

/-- The signed values a descriptor level points at. -/
def longsOf (j : List Jser) : List Int := j.map (fun e => e.data.getLd 0)

/-! ## Writer/serializer invariants

`SInv sp b x` captures what every writer call satisfies when entered with
a clear error latch: the options return unchanged but for the latch; the
status is zero with the latch untouched, or negative with a negative
latch; the buffer's capacity never changes and `used` only grows, staying
within capacity; a dry run writes nothing; a wet run appends exactly as
many bytes as `used` advanced. -/
def SInv (sp : SOpts) (b : JserBuffer) (x : SRes) : Prop :=
  (x.1 = 0 ∧ x.2.1 = sp ∨ x.1 < 0 ∧ x.2.1 = { sp with error := x.2.1.error } ∧ x.2.1.error < 0) ∧
  x.2.2.length = b.length ∧
  b.used ≤ x.2.2.used ∧
  (b.used ≤ b.length → x.2.2.used ≤ b.length) ∧
  (sp.dry_run = true → x.2.2.buf = b.buf) ∧
  (sp.dry_run = false → ∃ E, x.2.2.buf = b.buf ++ E ∧ b.used + E.length = x.2.2.used)

theorem sinv_ret (sp : SOpts) (b : JserBuffer) : SInv sp b (0, sp, b) := by
  refine ⟨Or.inl ⟨rfl, rfl⟩, rfl, le_refl _, fun h => h, fun _ => rfl, fun _ => ⟨[], by simp⟩⟩

theorem sinv_on_error (sp : SOpts) (b : JserBuffer) (err : Int)
    (herr : sp.error = 0) (hneg : err < 0) :
    SInv sp b ((on_error sp err).1, (on_error sp err).2, b) := by
  refine ⟨Or.inr ⟨hneg, ?_, ?_⟩, rfl, le_refl _, fun h => h, fun _ => rfl, fun _ => ⟨[], by simp⟩⟩
  · simp [on_error, herr]
  · simp [on_error, herr, hneg]

/-- Transitivity: a zero-status intermediate state preserves the
invariant. -/
theorem sinv_trans {sp : SOpts} {b1 b2 : JserBuffer} {x : SRes}
    (h12 : SInv sp b1 ((0 : Int), sp, b2)) (hx : SInv sp b2 x) : SInv sp b1 x := by
  obtain ⟨-, hlen, hmono, hbound, hdry, hwet⟩ := h12
  obtain ⟨hst', hlen', hmono', hbound', hdry', hwet'⟩ := hx
  refine ⟨hst', hlen'.trans hlen, hmono.trans hmono', ?_, ?_, ?_⟩
  · intro h
    exact hlen ▸ hbound' (hlen ▸ hbound h)
  · intro h
    rw [hdry' h, hdry h]
  · intro h
    obtain ⟨E1, hE1, hn1⟩ := hwet h
    obtain ⟨E2, hE2, hn2⟩ := hwet' h
    have hE1' : b2.buf = b1.buf ++ E1 := hE1
    have hn1' : b1.used + E1.length = b2.used := hn1
    exact ⟨E1 ++ E2, by rw [hE2, hE1', List.append_assoc], by rw [List.length_append]; omega⟩

/-- Chain two invariant steps: the state after a successful first step is
`(sp, x.2.2)`, from which the second runs. -/
theorem sinv_seq {sp : SOpts} {b : JserBuffer} {x : SRes} {f : SOpts → JserBuffer → SRes}
    (hx : SInv sp b x) (hf : SInv sp x.2.2 (f sp x.2.2)) :
    SInv sp b (if x.1 < 0 then ((-1 : Int), x.2.1, x.2.2) else f x.2.1 x.2.2) := by
  obtain ⟨hst, hlen, hmono, hbound, hdry, hwet⟩ := hx
  rcases hst with ⟨h0, hsp⟩ | ⟨hneg, hsp, herr⟩
  · rw [if_neg (by omega), hsp]
    obtain ⟨hst', hlen', hmono', hbound', hdry', hwet'⟩ := hf
    refine ⟨hst', hlen'.trans hlen, hmono.trans hmono', ?_, ?_, ?_⟩
    · intro h
      exact hlen ▸ hbound' (hlen ▸ hbound h)
    · intro h
      rw [hdry' h, hdry h]
    · intro h
      obtain ⟨E1, hE1, hn1⟩ := hwet h
      obtain ⟨E2, hE2, hn2⟩ := hwet' h
      exact ⟨E1 ++ E2, by rw [hE2, hE1, List.append_assoc], by
        rw [List.length_append]; omega⟩
  · rw [if_pos hneg]
    exact ⟨Or.inr ⟨by omega, hsp, herr⟩, hlen, hmono, hbound, hdry, hwet⟩

theorem sinv_seqLt {sp : SOpts} {b : JserBuffer} {x : SRes} {f : SOpts → JserBuffer → SRes}
    (hx : SInv sp b x) (hf : SInv sp x.2.2 (f sp x.2.2)) :
    SInv sp b (seqLt x f) := by
  have := sinv_seq hx hf
  rcases x with ⟨r, sp', b'⟩
  simpa [seqLt] using this

theorem sinv_seqNe {sp : SOpts} {b : JserBuffer} {x : SRes} {f : SOpts → JserBuffer → SRes}
    (hx : SInv sp b x) (hf : SInv sp x.2.2 (f sp x.2.2)) :
    SInv sp b (seqNe x f) := by
  have h := sinv_seq hx hf
  obtain ⟨hst, _⟩ := hx
  show SInv sp b (if x.1 ≠ 0 then ((-1 : Int), x.2.1, x.2.2) else f x.2.1 x.2.2)
  rcases hst with ⟨h0, hsp⟩ | ⟨hneg, hsp, herr⟩
  · rw [if_neg (by omega)]
    rw [if_neg (by omega)] at h
    exact h
  · rw [if_pos (by omega)]
    rw [if_pos hneg] at h
    exact h

theorem add_ch_inv (sp : SOpts) (b : JserBuffer) (ch : Nat) (herr : sp.error = 0) :
    SInv sp b (add_ch sp b ch) := by
  unfold add_ch
  split
  · exact sinv_on_error sp b JSER_ERR_SPACE herr (by decide)
  · rename_i hsp
    refine ⟨Or.inl ⟨rfl, rfl⟩, rfl, by simp, by intro h; simp; omega, ?_, ?_⟩
    · intro h; simp [h]
    · intro h; exact ⟨[ch % 256], by simp [h]⟩

theorem addescaped_inv (sp : SOpts) (b : JserBuffer) (esc : Nat) (herr : sp.error = 0) :
    SInv sp b (addescaped sp b esc) := by
  unfold addescaped
  exact sinv_seqLt (add_ch_inv sp b 92 herr) (sinv_seqLt (add_ch_inv sp _ esc herr) (sinv_ret _ _))

theorem addstr_esc_step_inv (sp : SOpts) (b : JserBuffer) (ch : Nat) (herr : sp.error = 0) :
    SInv sp b (addstr_esc_step sp b ch) := by
  unfold addstr_esc_step
  split
  · exact addescaped_inv sp b _ herr
  · split
    · exact addescaped_inv sp b _ herr
    · split
      · exact addescaped_inv sp b _ herr
      · split
        · exact addescaped_inv sp b _ herr
        · split
          · exact addescaped_inv sp b _ herr
          · split
            · exact addescaped_inv sp b _ herr
            · exact add_ch_inv sp b _ herr

theorem addstr_esc_inv (sp : SOpts) (b : JserBuffer) (str : List Nat) (herr : sp.error = 0) :
    SInv sp b (addstr_esc sp b str) := by
  induction str generalizing b with
  | nil => exact sinv_ret sp b
  | cons ch rest ih =>
    unfold addstr_esc
    exact sinv_seqLt (addstr_esc_step_inv sp b ch herr) (ih _)

theorem addstr_inv (sp : SOpts) (b : JserBuffer) (str : List Nat) (herr : sp.error = 0) :
    SInv sp b (addstr sp b str) := by
  unfold addstr
  split
  · exact addstr_esc_inv sp b str herr
  · show SInv sp b (if str.length + b.used > b.length
        then ((on_error sp JSER_ERR_SPACE).1, (on_error sp JSER_ERR_SPACE).2, b)
        else (0, sp, { b with used := b.used + str.length,
                              buf := if sp.dry_run then b.buf else b.buf ++ str.map (· % 256) }))
    split
    · exact sinv_on_error sp b JSER_ERR_SPACE herr (by decide)
    · rename_i _ hsp
      refine ⟨Or.inl ⟨rfl, rfl⟩, rfl, by simp, by intro h; simp; omega, ?_, ?_⟩
      · intro h; simp [h]
      · intro h; exact ⟨str.map (· % 256), by simp [h]⟩

theorem add_quote_inv (sp : SOpts) (b : JserBuffer) (q : List Nat) (herr : sp.error = 0) :
    SInv sp b (add_quote sp b q) := by
  unfold add_quote
  exact sinv_seqLt (add_ch_inv sp b 34 herr)
    (sinv_seqLt (addstr_inv sp _ q herr) (sinv_seqLt (add_ch_inv sp _ 34 herr) (sinv_ret _ _)))

theorem add_attr_inv (sp : SOpts) (b : JserBuffer) (a : List Nat) (herr : sp.error = 0) :
    SInv sp b (add_attr sp b a) := by
  unfold add_attr
  exact sinv_seqLt (add_quote_inv sp b a herr) (sinv_seqLt (add_ch_inv sp _ 58 herr) (sinv_ret _ _))

theorem add_indent_go_inv (sp : SOpts) (b : JserBuffer) (n : Nat) (herr : sp.error = 0) :
    SInv sp b (add_indent_go sp b n) := by
  induction n generalizing b with
  | zero => exact sinv_ret sp b
  | succ n ih =>
    unfold add_indent_go
    exact sinv_seqLt (add_ch_inv sp b 9 herr) (ih _)

theorem add_indent_inv (sp : SOpts) (b : JserBuffer) (n : Nat) (herr : sp.error = 0) :
    SInv sp b (add_indent sp b n) := by
  unfold add_indent
  split
  · exact sinv_ret sp b
  · exact add_indent_go_inv sp b n herr

theorem add_space_inv (sp : SOpts) (b : JserBuffer) (herr : sp.error = 0) :
    SInv sp b (add_space sp b) := by
  unfold add_space
  split
  · exact sinv_ret sp b
  · exact add_ch_inv sp b 32 herr

theorem add_newline_inv (sp : SOpts) (b : JserBuffer) (herr : sp.error = 0) :
    SInv sp b (add_newline sp b) := by
  unfold add_newline
  split
  · exact sinv_ret sp b
  · exact add_ch_inv sp b 10 herr

theorem add_i64_inv (sp : SOpts) (b : JserBuffer) (v : Int) (herr : sp.error = 0) :
    SInv sp b (add_i64 sp b v) :=
  sinv_seqLt (addstr_inv sp b _ herr) (sinv_ret _ _)

theorem add_u64_inv (sp : SOpts) (b : JserBuffer) (v : Nat) (herr : sp.error = 0) :
    SInv sp b (add_u64 sp b v) :=
  sinv_seqLt (addstr_inv sp b _ herr) (sinv_ret _ _)

theorem add_bool_inv (sp : SOpts) (b : JserBuffer) (v : Bool) (herr : sp.error = 0) :
    SInv sp b (add_bool sp b v) :=
  sinv_seqLt (addstr_inv sp b _ herr) (sinv_ret _ _)

/-- The encoding loop emits four characters per started group of three
input bytes. -/
theorem b64enc_go_length (l : List Nat) : (b64enc_go l).length = 4 * ((l.length + 2) / 3) := by
  induction l using b64enc_go.induct with
  | case1 => simp [b64enc_go]
  | case2 a => simp [b64enc_go, b64enc_group]
  | case3 a b => simp [b64enc_go, b64enc_group]
  | case4 a b c rest ih =>
    simp only [b64enc_go, b64enc_group, List.length_append, List.length_cons, ih]
    simp
    omega

/-- When the declared output capacity suffices, `jser_base64_encode`
succeeds and writes exactly `base64_encoded_size ilen` characters. -/
theorem jser_base64_encode_ok (ibuf : List Nat) (ilen olen : Nat)
    (h : ¬ olen < base64_encoded_size ilen) :
    (jser_base64_encode ibuf ilen olen).1 = 0 ∧
    (jser_base64_encode ibuf ilen olen).2.1.length = base64_encoded_size ilen := by
  unfold jser_base64_encode
  rw [if_neg h]
  refine ⟨rfl, ?_⟩
  have hraw : (b64enc_go (padTake ilen ibuf)).length = base64_encoded_size ilen := by
    rw [b64enc_go_length]
    unfold padTake base64_encoded_size
    congr 1
    have : (ibuf.take ilen).length = min ilen ibuf.length := by simp
    simp [List.length_append, this]
    omega
  have hpads : b64mod_table.getD (ilen % 3) 0 ≤ base64_encoded_size ilen := by
    unfold base64_encoded_size b64mod_table
    have h3 := Nat.mod_lt ilen (show 0 < 3 by decide)
    interval_cases h : ilen % 3 <;> simp_all <;> omega
  simp only [List.length_append, List.length_take, List.length_replicate, hraw]
  omega

/-- `base64_encoded_size` is monotone. -/
theorem base64_encoded_size_mono {a c : Nat} (h : a ≤ c) :
    base64_encoded_size a ≤ base64_encoded_size c := by
  unfold base64_encoded_size
  exact Nat.mul_le_mul_left 4 (Nat.div_le_div_right (by omega))

/-- When the space pre-check of `add_buffer` has passed and the buffer is
well formed, the middle step succeeds, advances `used` by the encoded size
of the occupied count, and appends that many bytes (none in a dry run). -/
theorem add_buffer_step_ok (sp : SOpts) (b : JserBuffer) (bufv : JserBuffer)
    (hwf : bufv.used ≤ bufv.length)
    (hpre : ¬ (b.length - b.used < base64_encoded_size bufv.length)) :
    ∃ W, add_buffer_step sp b bufv
        = (0, { b with used := b.used + base64_encoded_size bufv.used, buf := b.buf ++ W }) ∧
      (sp.dry_run = true → W = []) ∧
      (sp.dry_run = false → W.length = base64_encoded_size bufv.used) := by
  have hmono := base64_encoded_size_mono hwf
  unfold add_buffer_step
  by_cases hdry : sp.dry_run = false
  · rw [if_pos hdry]
    by_cases hbl : bufv.length ≠ 0
    · rw [if_pos hbl]
      rcases henc : jser_base64_encode bufv.buf bufv.used b.length with ⟨est, written, eo⟩
      have hcap : ¬ b.length < base64_encoded_size bufv.used := by omega
      have hok := jser_base64_encode_ok bufv.buf bufv.used b.length hcap
      rw [henc] at hok
      simp only at hok
      refine ⟨written, ?_, ?_, ?_⟩
      · obtain ⟨hest, -⟩ := hok
        subst hest
        norm_num
      · intro h; rw [h] at hdry; cases hdry
      · intro _; exact hok.2
    · rw [if_neg hbl]
      have hu0 : bufv.used = 0 := by omega
      refine ⟨[], by simp, fun _ => rfl, fun _ => by simp [hu0, base64_encoded_size]⟩
  · rw [if_neg hdry]
    refine ⟨[], by simp, fun _ => rfl, ?_⟩
    intro h; exact absurd h hdry

theorem add_buffer_rest_inv (sp : SOpts) (b : JserBuffer) (bufv : JserBuffer)
    (herr : sp.error = 0) (hwf : bufv.used ≤ bufv.length) :
    SInv sp b (add_buffer_rest sp b bufv) := by
  unfold add_buffer_rest
  split
  · exact sinv_on_error sp b JSER_ERR_SPACE herr (by decide)
  · rename_i hpre
    obtain ⟨W, hstep, hdryW, hwetW⟩ := add_buffer_step_ok sp b bufv hwf hpre
    rw [hstep]
    dsimp only
    rw [if_neg (by norm_num)]
    have hmid : SInv sp b
        ((0 : Int), sp, ⟨b.length, b.used + base64_encoded_size bufv.used, b.buf ++ W⟩) := by
      refine ⟨Or.inl ⟨rfl, rfl⟩, rfl, by simp, ?_, ?_, ?_⟩
      · intro h
        have hm := base64_encoded_size_mono hwf
        simp
        omega
      · intro h; simp [hdryW h]
      · intro h; exact ⟨W, rfl, by simp [hwetW h]⟩
    exact sinv_trans hmid (sinv_seqLt (add_ch_inv sp _ 34 herr) (sinv_ret _ _))

theorem add_buffer_inv (sp : SOpts) (b : JserBuffer) (bufv : JserBuffer)
    (herr : sp.error = 0) (hwf : bufv.used ≤ bufv.length) :
    SInv sp b (add_buffer sp b bufv) := by
  unfold add_buffer
  exact sinv_seqLt (add_ch_inv sp b 34 herr) (add_buffer_rest_inv sp _ bufv herr hwf)

/-! ## Well-formedness of the buffers a serialization run visits.

The predicates mirror the recursion (and fuel discipline) of
`addj`/`jsonify_go`/`jsonify`, checking a condition `P` on every
`jser_buffer_t` a descriptor's data can reach.  At fuel 0 the run fails
before visiting anything, so the predicate is vacuously true. -/

/-- All buffer values of a data union satisfy `P` (non-buffer data has
none). -/
def bufP (P : JserBuffer → Bool) (d : JserData) : Bool :=
  match d with
  | .buf bs => bs.all P
  | _ => true

/-- A buffer's occupied count is within its capacity (the spec's
`occupied ≤ capacity` invariant). -/
def wfBuf (v : JserBuffer) : Bool := decide (v.used ≤ v.length)

/-- Additionally, the encoded sizes of capacity and occupied count agree
— the condition under which `add_buffer`'s pre-check asks for no more
space than the write consumes. -/
def tightBuf (v : JserBuffer) : Bool :=
  decide (v.used ≤ v.length) &&
  decide (base64_encoded_size v.length = base64_encoded_size v.used)

mutual

def elemOK (P : JserBuffer → Bool) (fuel : Nat) (e : Jser) : Bool :=
  match fuel with
  | 0 => true
  | fuel + 1 => bufP P e.data && treeOKj P fuel e.children e.length
termination_by structural fuel

def treeOKgo (P : JserBuffer → Bool) (fuel : Nat) (l : List Jser) : Bool :=
  match fuel with
  | 0 => true
  | fuel + 1 =>
    match l with
    | [] => true
    | e :: rest => elemOK P fuel e && treeOKgo P fuel rest
termination_by structural fuel

def treeOKj (P : JserBuffer → Bool) (fuel : Nat) (j : List Jser) (jlen : Nat) : Bool :=
  match fuel with
  | 0 => true
  | fuel + 1 => treeOKgo P fuel (j.take jlen)
termination_by structural fuel

end

theorem getBuf_wf {u : JserData} (h : bufP wfBuf u = true) (i : Nat) :
    (u.getBuf i).used ≤ (u.getBuf i).length := by
  cases u <;> simp only [JserData.getBuf]
  case buf bs =>
    simp only [bufP, List.all_eq_true] at h
    by_cases hi : i < bs.length
    · have := h (bs.getD i ⟨0, 0, []⟩) (by rw [List.getD_eq_getElem _ _ hi]; exact List.getElem_mem hi)
      simpa [wfBuf] using this
    · rw [List.getD_eq_default _ _ (by omega)]
  all_goals exact le_refl 0

theorem add_value_inv (sp : SOpts) (b : JserBuffer) (t : JserType) (u : JserData) (index : Nat)
    (herr : sp.error = 0) (hwf : bufP wfBuf u = true) :
    SInv sp b (add_value sp b t u index) := by
  cases t
  all_goals simp only [add_value]
  · exact sinv_seqLt (add_i64_inv sp b _ herr) (sinv_ret _ _)
  · exact sinv_seqLt (add_u64_inv sp b _ herr) (sinv_ret _ _)
  · exact sinv_seqLt (add_bool_inv sp b _ herr) (sinv_ret _ _)
  · split
    · exact sinv_on_error sp b JSER_ERR_CONFIG herr (by decide)
    · exact sinv_seqLt (add_quote_inv sp b _ herr) (sinv_ret _ _)
  · exact sinv_seqLt (add_buffer_inv sp b _ herr (getBuf_wf hwf index)) (sinv_ret _ _)
  · exact sinv_on_error sp b JSER_ERR_TYPE herr (by decide)
  · exact sinv_on_error sp b JSER_ERR_TYPE herr (by decide)

theorem addj_arr_go_inv (sp : SOpts) (t : JserType) (u : JserData) (used : Nat)
    (herr : sp.error = 0) (hwf : bufP wfBuf u = true) :
    ∀ (n : Nat) (i : Nat) (b : JserBuffer), SInv sp b (addj_arr_go sp b t u used i n) := by
  intro n
  induction n with
  | zero => intro i b; exact sinv_ret sp b
  | succ n ih =>
    intro i b
    unfold addj_arr_go
    refine sinv_seqLt (add_value_inv sp b t u i herr hwf) ?_
    refine sinv_seqLt ?_ (ih _ _)
    split
    · exact sinv_ret _ _
    · exact add_ch_inv _ _ 44 herr

theorem addj_arr_inv (sp : SOpts) (b : JserBuffer) (t : JserType) (u : JserData) (used : Nat)
    (herr : sp.error = 0) (hwf : bufP wfBuf u = true) :
    SInv sp b (addj_arr sp b t u used) :=
  addj_arr_go_inv sp t u used herr hwf used 0 b

/-- Tail sequencing of `jsonify`: a nonzero loop status is returned as is. -/
theorem sinv_seqTail {sp : SOpts} {b : JserBuffer} {x : SRes} {f : SOpts → JserBuffer → SRes}
    (hx : SInv sp b x) (hf : SInv sp x.2.2 (f sp x.2.2)) :
    SInv sp b (seqTail x f) := by
  show SInv sp b (if x.1 ≠ 0 then (x.1, x.2.1, x.2.2) else f x.2.1 x.2.2)
  obtain ⟨hst, hlen, hmono, hbound, hdry, hwet⟩ := hx
  rcases hst with ⟨h0, hsp⟩ | ⟨hneg, hsp, herr⟩
  · rw [if_neg (by omega), hsp]
    exact sinv_trans ⟨Or.inl ⟨rfl, rfl⟩, hlen, hmono, hbound, hdry, hwet⟩ hf
  · rw [if_pos (by omega)]
    exact ⟨Or.inr ⟨hneg, hsp, herr⟩, hlen, hmono, hbound, hdry, hwet⟩

/-- The master single-run invariant of the serializer, by induction on the
fuel: with a clear error latch and well-formed buffers, every
`addj`/`jsonify_go`/`jsonify` run satisfies `SInv`. -/
theorem ser_inv (fuel : Nat) :
    (∀ (sp : SOpts) (b : JserBuffer) (e : Jser) (depth : Nat), sp.error = 0 →
      elemOK wfBuf fuel e = true → SInv sp b (addj fuel sp b e depth)) ∧
    (∀ (sp : SOpts) (b : JserBuffer) (l : List Jser) (is_arr : Bool) (depth : Nat), sp.error = 0 →
      treeOKgo wfBuf fuel l = true → SInv sp b (jsonify_go fuel sp b l is_arr depth)) ∧
    (∀ (sp : SOpts) (b : JserBuffer) (j : List Jser) (jlen : Nat) (is_arr : Bool) (depth : Nat), sp.error = 0 →
      treeOKj wfBuf fuel j jlen = true → SInv sp b (jsonify fuel sp j jlen b is_arr depth)) := by
  induction fuel with
  | zero =>
    refine ⟨?_, ?_, ?_⟩
    · intro sp b e depth herr _
      exact sinv_on_error sp b JSER_ERR_DEPTH herr (by decide)
    · intro sp b l is_arr depth herr _
      exact sinv_on_error sp b JSER_ERR_DEPTH herr (by decide)
    · intro sp b j jlen is_arr depth herr _
      exact sinv_on_error sp b JSER_ERR_DEPTH herr (by decide)
  | succ fuel ih =>
    obtain ⟨ihA, ihG, ihJ⟩ := ih
    refine ⟨?_, ?_, ?_⟩
    · intro sp b e depth herr hwf
      have hwf' : bufP wfBuf e.data = true ∧ treeOKj wfBuf fuel e.children e.length = true := by
        simpa [elemOK, Bool.and_eq_true] using hwf
      show SInv sp b (addj (fuel + 1) sp b e depth)
      unfold addj
      split
      · split
        · exact sinv_on_error sp b JSER_ERR_CONFIG herr (by decide)
        · exact sinv_seqNe (add_newline_inv sp b herr)
            (sinv_seqLt (ihJ sp _ e.children e.length false (depth + 1) herr hwf'.2) (sinv_ret _ _))
      · split
        · exact sinv_seqNe (add_newline_inv sp b herr)
            (sinv_seqLt (ihJ sp _ e.children e.length true (depth + 1) herr hwf'.2) (sinv_ret _ _))
        · split
          · exact sinv_seqLt (add_ch_inv sp b 91 herr)
              (sinv_seqLt (addj_arr_inv sp _ e.type e.data e.used herr hwf'.1)
                (sinv_seqLt (add_ch_inv sp _ 93 herr) (sinv_ret _ _)))
          · exact sinv_seqLt (add_value_inv sp b e.type e.data 0 herr hwf'.1) (sinv_ret _ _)
    · intro sp b l is_arr depth herr hwf
      show SInv sp b (jsonify_go (fuel + 1) sp b l is_arr depth)
      unfold jsonify_go
      match l with
      | [] => exact sinv_ret sp b
      | e :: rest =>
        have hwf' : elemOK wfBuf fuel e = true ∧ treeOKgo wfBuf fuel rest = true := by
          simpa [treeOKgo, Bool.and_eq_true] using hwf
        have hattr : ∀ b' : JserBuffer, SInv sp b'
            (if is_arr = true then ((0 : Int), sp, b')
             else seqLt (add_attr sp b' e.attr) fun sp b =>
                    seqNe (add_space sp b) fun sp b => ((0 : Int), sp, b)) := by
          intro b'
          by_cases ha : is_arr = true
          · rw [if_pos ha]; exact sinv_ret sp b'
          · rw [if_neg ha]
            exact sinv_seqLt (add_attr_inv sp b' e.attr herr)
              (sinv_seqNe (add_space_inv sp _ herr) (sinv_ret _ _))
        have hcomma : ∀ b' : JserBuffer, SInv sp b'
            (if rest.isEmpty = true then ((0 : Int), sp, b') else add_ch sp b' 44) := by
          intro b'
          by_cases hl : rest.isEmpty = true
          · rw [if_pos hl]; exact sinv_ret sp b'
          · rw [if_neg hl]; exact add_ch_inv sp b' 44 herr
        dsimp only
        split
        · exact sinv_on_error sp b JSER_ERR_CONFIG herr (by decide)
        · refine sinv_seqNe (add_indent_inv sp b _ herr) ?_
          refine sinv_seqLt (hattr _) ?_
          refine sinv_seqLt (ihA sp _ e depth herr hwf'.1) ?_
          refine sinv_seqLt (hcomma _) ?_
          exact sinv_seqNe (add_newline_inv sp _ herr) (ihG sp _ rest is_arr depth herr hwf'.2)
    · intro sp b j jlen is_arr depth herr hwf
      have hwf' : treeOKgo wfBuf fuel (j.take jlen) = true := by
        simpa [treeOKj] using hwf
      show SInv sp b (jsonify (fuel + 1) sp j jlen b is_arr depth)
      unfold jsonify
      split
      · exact sinv_on_error sp b JSER_ERR_DEPTH herr (by decide)
      · refine sinv_seqNe (add_indent_inv sp b depth herr) ?_
        refine sinv_seqLt (add_ch_inv sp _ _ herr) ?_
        refine sinv_seqNe (add_newline_inv sp _ herr) ?_
        refine sinv_seqTail (ihG sp _ (j.take jlen) is_arr depth herr hwf') ?_
        exact sinv_seqNe (add_indent_inv sp _ depth herr)
          (sinv_seqLt (add_ch_inv sp _ _ herr) (sinv_ret _ _))

/-! ## Two-run comparison.

`CrossOut tight l2 x₁ x₂` relates a *successful* reference run `x₁` with a
second run `x₂` of the same writer call over a buffer of capacity `l2`
holding the same `used` watermark: the second run either succeeds with the
same final watermark, or fails with the space error latched — and, when
the buffers passed the tightness condition, a space failure can only
happen because `l2` lies below the reference run's final watermark.  The
two runs may differ in dry-run flag and in capacity; this single lemma
family yields both the dry-run/wet-run length agreement and the
exact-capacity success/failure behaviour. -/
def CrossOut (tight : Prop) (l2 : Nat) (x₁ x₂ : SRes) : Prop :=
  (x₂.1 = 0 ∧ x₂.2.2.used = x₁.2.2.used) ∨
  (x₂.1 < 0 ∧ x₂.2.1.error = JSER_ERR_SPACE ∧ (tight → l2 < x₁.2.2.used))

theorem crossOut_mono {T T' : Prop} {l2 : Nat} {x₁ x₂ : SRes} (h : T' → T) :
    CrossOut T l2 x₁ x₂ → CrossOut T' l2 x₁ x₂ := by
  rintro (hok | ⟨h1, h2, h3⟩)
  · exact Or.inl hok
  · exact Or.inr ⟨h1, h2, fun ht => h3 (h ht)⟩

/-- The hypotheses shared by every cross lemma: clear latches, same pretty
flag, same depth limit, same watermark. -/
def CrossHyp (sp₁ sp₂ : SOpts) (b₁ b₂ : JserBuffer) : Prop :=
  sp₁.error = 0 ∧ sp₂.error = 0 ∧ sp₂.pretty = sp₁.pretty ∧ sp₂.max = sp₁.max ∧
  b₂.used = b₁.used

theorem cross_seqLt {sp₁ sp₂ : SOpts} {b₁ b₂ : JserBuffer} {x₁ x₂ : SRes}
    {f₁ f₂ : SOpts → JserBuffer → SRes} {T : Prop}
    (hinv1 : SInv sp₁ b₁ x₁)
    (hinv2 : SInv sp₂ b₂ x₂)
    (hfinv1 : SInv sp₁ x₁.2.2 (f₁ sp₁ x₁.2.2))
    (hc : x₁.1 = 0 → CrossOut T b₂.length x₁ x₂)
    (hfc : x₁.1 = 0 → x₂.1 = 0 → x₂.2.2.used = x₁.2.2.used → (f₁ sp₁ x₁.2.2).1 = 0 →
      CrossOut T b₂.length (f₁ sp₁ x₁.2.2) (f₂ sp₂ x₂.2.2))
    (hs : (seqLt x₁ f₁).1 = 0) :
    CrossOut T b₂.length (seqLt x₁ f₁) (seqLt x₂ f₂) := by
  have hshow1 : seqLt x₁ f₁ = if x₁.1 < 0 then ((-1 : Int), x₁.2.1, x₁.2.2) else f₁ x₁.2.1 x₁.2.2 := rfl
  have hshow2 : seqLt x₂ f₂ = if x₂.1 < 0 then ((-1 : Int), x₂.2.1, x₂.2.2) else f₂ x₂.2.1 x₂.2.2 := rfl
  obtain ⟨hst1, -⟩ := hinv1
  rcases hst1 with ⟨h10, hsp1⟩ | ⟨hneg1, -, -⟩
  · rw [hshow1, if_neg (by omega), hsp1] at hs ⊢
    rcases hc h10 with ⟨h20, hueq⟩ | ⟨hneg2, herr2, hbnd2⟩
    · obtain ⟨hst2, -⟩ := hinv2
      rcases hst2 with ⟨-, hsp2⟩ | ⟨hneg2, -, -⟩
      · rw [hshow2, if_neg (by omega), hsp2]
        exact hfc h10 h20 hueq hs
      · omega
    · rw [hshow2, if_pos hneg2]
      refine Or.inr ⟨by norm_num, herr2, fun ht => ?_⟩
      have hb := hbnd2 ht
      obtain ⟨-, -, hmono, -⟩ := hfinv1
      omega
  · rw [hshow1, if_pos hneg1] at hs
    exact absurd hs (by norm_num)

theorem cross_seqNe {sp₁ sp₂ : SOpts} {b₁ b₂ : JserBuffer} {x₁ x₂ : SRes}
    {f₁ f₂ : SOpts → JserBuffer → SRes} {T : Prop}
    (hinv1 : SInv sp₁ b₁ x₁)
    (hinv2 : SInv sp₂ b₂ x₂)
    (hfinv1 : SInv sp₁ x₁.2.2 (f₁ sp₁ x₁.2.2))
    (hc : x₁.1 = 0 → CrossOut T b₂.length x₁ x₂)
    (hfc : x₁.1 = 0 → x₂.1 = 0 → x₂.2.2.used = x₁.2.2.used → (f₁ sp₁ x₁.2.2).1 = 0 →
      CrossOut T b₂.length (f₁ sp₁ x₁.2.2) (f₂ sp₂ x₂.2.2))
    (hs : (seqNe x₁ f₁).1 = 0) :
    CrossOut T b₂.length (seqNe x₁ f₁) (seqNe x₂ f₂) := by
  have hshow1 : seqNe x₁ f₁ = if x₁.1 ≠ 0 then ((-1 : Int), x₁.2.1, x₁.2.2) else f₁ x₁.2.1 x₁.2.2 := rfl
  have hshow2 : seqNe x₂ f₂ = if x₂.1 ≠ 0 then ((-1 : Int), x₂.2.1, x₂.2.2) else f₂ x₂.2.1 x₂.2.2 := rfl
  obtain ⟨hst1, -⟩ := hinv1
  rcases hst1 with ⟨h10, hsp1⟩ | ⟨hneg1, -, -⟩
  · rw [hshow1, if_neg (by omega), hsp1] at hs ⊢
    rcases hc h10 with ⟨h20, hueq⟩ | ⟨hneg2, herr2, hbnd2⟩
    · obtain ⟨hst2, -⟩ := hinv2
      rcases hst2 with ⟨-, hsp2⟩ | ⟨hneg2, -, -⟩
      · rw [hshow2, if_neg (by omega), hsp2]
        exact hfc h10 h20 hueq hs
      · omega
    · rw [hshow2, if_pos (by omega)]
      refine Or.inr ⟨by norm_num, herr2, fun ht => ?_⟩
      have hb := hbnd2 ht
      obtain ⟨-, -, hmono, -⟩ := hfinv1
      omega
  · rw [hshow1, if_pos (by omega)] at hs
    exact absurd hs (by norm_num)

theorem cross_seqTail {sp₁ sp₂ : SOpts} {b₁ b₂ : JserBuffer} {x₁ x₂ : SRes}
    {f₁ f₂ : SOpts → JserBuffer → SRes} {T : Prop}
    (hinv1 : SInv sp₁ b₁ x₁)
    (hinv2 : SInv sp₂ b₂ x₂)
    (hfinv1 : SInv sp₁ x₁.2.2 (f₁ sp₁ x₁.2.2))
    (hc : x₁.1 = 0 → CrossOut T b₂.length x₁ x₂)
    (hfc : x₁.1 = 0 → x₂.1 = 0 → x₂.2.2.used = x₁.2.2.used → (f₁ sp₁ x₁.2.2).1 = 0 →
      CrossOut T b₂.length (f₁ sp₁ x₁.2.2) (f₂ sp₂ x₂.2.2))
    (hs : (seqTail x₁ f₁).1 = 0) :
    CrossOut T b₂.length (seqTail x₁ f₁) (seqTail x₂ f₂) := by
  have hshow1 : seqTail x₁ f₁ = if x₁.1 ≠ 0 then (x₁.1, x₁.2.1, x₁.2.2) else f₁ x₁.2.1 x₁.2.2 := rfl
  have hshow2 : seqTail x₂ f₂ = if x₂.1 ≠ 0 then (x₂.1, x₂.2.1, x₂.2.2) else f₂ x₂.2.1 x₂.2.2 := rfl
  obtain ⟨hst1, -⟩ := hinv1
  rcases hst1 with ⟨h10, hsp1⟩ | ⟨hneg1, -, -⟩
  · rw [hshow1, if_neg (by omega), hsp1] at hs ⊢
    rcases hc h10 with ⟨h20, hueq⟩ | ⟨hneg2, herr2, hbnd2⟩
    · obtain ⟨hst2, -⟩ := hinv2
      rcases hst2 with ⟨-, hsp2⟩ | ⟨hneg2, -, -⟩
      · rw [hshow2, if_neg (by omega), hsp2]
        exact hfc h10 h20 hueq hs
      · omega
    · rw [hshow2, if_pos (by omega)]
      refine Or.inr ⟨by omega, herr2, fun ht => ?_⟩
      have hb := hbnd2 ht
      obtain ⟨-, -, hmono, -⟩ := hfinv1
      omega
  · rw [hshow1, if_pos (by omega)] at hs
    simp only at hs
    omega

/-- `cross_seqLt` with the entry buffers elided: the status facts and the
continuation's watermark monotonicity are passed directly (each is a
projection of the corresponding `SInv`), so every argument is determined
by the goal. -/
theorem cross_seqLt' (sp₁ sp₂ : SOpts) {l2 : Nat} {x₁ x₂ : SRes}
    {f₁ f₂ : SOpts → JserBuffer → SRes} {T : Prop}
    (hst1 : x₁.1 = 0 ∧ x₁.2.1 = sp₁ ∨
      x₁.1 < 0 ∧ x₁.2.1 = { sp₁ with error := x₁.2.1.error } ∧ x₁.2.1.error < 0)
    (hst2 : x₂.1 = 0 ∧ x₂.2.1 = sp₂ ∨
      x₂.1 < 0 ∧ x₂.2.1 = { sp₂ with error := x₂.2.1.error } ∧ x₂.2.1.error < 0)
    (hfmono : x₁.2.2.used ≤ (f₁ sp₁ x₁.2.2).2.2.used)
    (hc : x₁.1 = 0 → CrossOut T l2 x₁ x₂)
    (hfc : x₁.1 = 0 → x₂.1 = 0 → x₂.2.2.used = x₁.2.2.used → (f₁ sp₁ x₁.2.2).1 = 0 →
      CrossOut T l2 (f₁ sp₁ x₁.2.2) (f₂ sp₂ x₂.2.2))
    (hs : (seqLt x₁ f₁).1 = 0) :
    CrossOut T l2 (seqLt x₁ f₁) (seqLt x₂ f₂) := by
  have hshow1 : seqLt x₁ f₁ = if x₁.1 < 0 then ((-1 : Int), x₁.2.1, x₁.2.2) else f₁ x₁.2.1 x₁.2.2 := rfl
  have hshow2 : seqLt x₂ f₂ = if x₂.1 < 0 then ((-1 : Int), x₂.2.1, x₂.2.2) else f₂ x₂.2.1 x₂.2.2 := rfl
  rcases hst1 with ⟨h10, hsp1⟩ | ⟨hneg1, -, -⟩
  · rw [hshow1, if_neg (by omega), hsp1] at hs ⊢
    rcases hc h10 with ⟨h20, hueq⟩ | ⟨hneg2, herr2, hbnd2⟩
    · rcases hst2 with ⟨-, hsp2⟩ | ⟨hneg2, -, -⟩
      · rw [hshow2, if_neg (by omega), hsp2]
        exact hfc h10 h20 hueq hs
      · omega
    · rw [hshow2, if_pos hneg2]
      refine Or.inr ⟨by norm_num, herr2, fun ht => ?_⟩
      have hb := hbnd2 ht
      omega
  · rw [hshow1, if_pos hneg1] at hs
    exact absurd hs (by norm_num)

/-- `cross_seqNe` with the entry buffers elided. -/
theorem cross_seqNe' (sp₁ sp₂ : SOpts) {l2 : Nat} {x₁ x₂ : SRes}
    {f₁ f₂ : SOpts → JserBuffer → SRes} {T : Prop}
    (hst1 : x₁.1 = 0 ∧ x₁.2.1 = sp₁ ∨
      x₁.1 < 0 ∧ x₁.2.1 = { sp₁ with error := x₁.2.1.error } ∧ x₁.2.1.error < 0)
    (hst2 : x₂.1 = 0 ∧ x₂.2.1 = sp₂ ∨
      x₂.1 < 0 ∧ x₂.2.1 = { sp₂ with error := x₂.2.1.error } ∧ x₂.2.1.error < 0)
    (hfmono : x₁.2.2.used ≤ (f₁ sp₁ x₁.2.2).2.2.used)
    (hc : x₁.1 = 0 → CrossOut T l2 x₁ x₂)
    (hfc : x₁.1 = 0 → x₂.1 = 0 → x₂.2.2.used = x₁.2.2.used → (f₁ sp₁ x₁.2.2).1 = 0 →
      CrossOut T l2 (f₁ sp₁ x₁.2.2) (f₂ sp₂ x₂.2.2))
    (hs : (seqNe x₁ f₁).1 = 0) :
    CrossOut T l2 (seqNe x₁ f₁) (seqNe x₂ f₂) := by
  have hshow1 : seqNe x₁ f₁ = if x₁.1 ≠ 0 then ((-1 : Int), x₁.2.1, x₁.2.2) else f₁ x₁.2.1 x₁.2.2 := rfl
  have hshow2 : seqNe x₂ f₂ = if x₂.1 ≠ 0 then ((-1 : Int), x₂.2.1, x₂.2.2) else f₂ x₂.2.1 x₂.2.2 := rfl
  rcases hst1 with ⟨h10, hsp1⟩ | ⟨hneg1, -, -⟩
  · rw [hshow1, if_neg (by omega), hsp1] at hs ⊢
    rcases hc h10 with ⟨h20, hueq⟩ | ⟨hneg2, herr2, hbnd2⟩
    · rcases hst2 with ⟨-, hsp2⟩ | ⟨hneg2, -, -⟩
      · rw [hshow2, if_neg (by omega), hsp2]
        exact hfc h10 h20 hueq hs
      · omega
    · rw [hshow2, if_pos (by omega)]
      refine Or.inr ⟨by norm_num, herr2, fun ht => ?_⟩
      have hb := hbnd2 ht
      omega
  · rw [hshow1, if_pos (by omega)] at hs
    exact absurd hs (by norm_num)

/-- `cross_seqTail` with the entry buffers elided. -/
theorem cross_seqTail' (sp₁ sp₂ : SOpts) {l2 : Nat} {x₁ x₂ : SRes}
    {f₁ f₂ : SOpts → JserBuffer → SRes} {T : Prop}
    (hst1 : x₁.1 = 0 ∧ x₁.2.1 = sp₁ ∨
      x₁.1 < 0 ∧ x₁.2.1 = { sp₁ with error := x₁.2.1.error } ∧ x₁.2.1.error < 0)
    (hst2 : x₂.1 = 0 ∧ x₂.2.1 = sp₂ ∨
      x₂.1 < 0 ∧ x₂.2.1 = { sp₂ with error := x₂.2.1.error } ∧ x₂.2.1.error < 0)
    (hfmono : x₁.2.2.used ≤ (f₁ sp₁ x₁.2.2).2.2.used)
    (hc : x₁.1 = 0 → CrossOut T l2 x₁ x₂)
    (hfc : x₁.1 = 0 → x₂.1 = 0 → x₂.2.2.used = x₁.2.2.used → (f₁ sp₁ x₁.2.2).1 = 0 →
      CrossOut T l2 (f₁ sp₁ x₁.2.2) (f₂ sp₂ x₂.2.2))
    (hs : (seqTail x₁ f₁).1 = 0) :
    CrossOut T l2 (seqTail x₁ f₁) (seqTail x₂ f₂) := by
  have hshow1 : seqTail x₁ f₁ = if x₁.1 ≠ 0 then (x₁.1, x₁.2.1, x₁.2.2) else f₁ x₁.2.1 x₁.2.2 := rfl
  have hshow2 : seqTail x₂ f₂ = if x₂.1 ≠ 0 then (x₂.1, x₂.2.1, x₂.2.2) else f₂ x₂.2.1 x₂.2.2 := rfl
  rcases hst1 with ⟨h10, hsp1⟩ | ⟨hneg1, -, -⟩
  · rw [hshow1, if_neg (by omega), hsp1] at hs ⊢
    rcases hc h10 with ⟨h20, hueq⟩ | ⟨hneg2, herr2, hbnd2⟩
    · rcases hst2 with ⟨-, hsp2⟩ | ⟨hneg2, -, -⟩
      · rw [hshow2, if_neg (by omega), hsp2]
        exact hfc h10 h20 hueq hs
      · omega
    · rw [hshow2, if_pos (by omega)]
      refine Or.inr ⟨by omega, herr2, fun ht => ?_⟩
      have hb := hbnd2 ht
      omega
  · rw [hshow1, if_pos (by omega)] at hs
    simp only at hs
    omega

/-- A zero-status pure result crosses with itself. -/
theorem cross_ret {T : Prop} {l2 : Nat} (sp₁ sp₂ : SOpts) (b₁ b₂ : JserBuffer)
    (hu : b₂.used = b₁.used) :
    CrossOut T l2 ((0 : Int), sp₁, b₁) ((0 : Int), sp₂, b₂) :=
  Or.inl ⟨rfl, hu⟩

theorem add_ch_cross {T : Prop} (sp₁ sp₂ : SOpts) (b₁ b₂ : JserBuffer) (ch : Nat)
    (h : CrossHyp sp₁ sp₂ b₁ b₂) (hs : (add_ch sp₁ b₁ ch).1 = 0) :
    CrossOut T b₂.length (add_ch sp₁ b₁ ch) (add_ch sp₂ b₂ ch) := by
  obtain ⟨he1, he2, -, -, hu⟩ := h
  unfold add_ch at hs ⊢
  by_cases h1 : 1 + b₁.used > b₁.length
  · rw [if_pos h1] at hs
    simp [on_error] at hs
    exact absurd hs (by decide)
  · rw [if_neg h1] at hs ⊢
    by_cases h2 : 1 + b₂.used > b₂.length
    · rw [if_pos h2]
      refine Or.inr ⟨?_, ?_, fun _ => ?_⟩
      · show (on_error sp₂ JSER_ERR_SPACE).1 < 0
        simp [on_error, JSER_ERR_SPACE]
      · show (on_error sp₂ JSER_ERR_SPACE).2.error = JSER_ERR_SPACE
        simp [on_error, he2]
      · show b₂.length < b₁.used + 1
        omega
    · rw [if_neg h2]
      refine Or.inl ⟨rfl, ?_⟩
      show b₂.used + 1 = b₁.used + 1
      omega

/-- Recast the capacity parameter of a cross result along an equality
(the run-2 capacity never changes, so every intermediate buffer's capacity
equals the entry capacity). -/
theorem cross_cast {T : Prop} {l l' : Nat} {x₁ x₂ : SRes}
    (h : CrossOut T l x₁ x₂) (he : l = l') : CrossOut T l' x₁ x₂ := he ▸ h

theorem addescaped_cross {T : Prop} (sp₁ sp₂ : SOpts) (b₁ b₂ : JserBuffer) (esc : Nat)
    (h : CrossHyp sp₁ sp₂ b₁ b₂) (hs : (addescaped sp₁ b₁ esc).1 = 0) :
    CrossOut T b₂.length (addescaped sp₁ b₁ esc) (addescaped sp₂ b₂ esc) := by
  obtain ⟨he1, he2, hp, hm, hu⟩ := h
  unfold addescaped at hs ⊢
  refine cross_seqLt (add_ch_inv sp₁ b₁ 92 he1) (add_ch_inv sp₂ b₂ 92 he2)
    (sinv_seqLt (add_ch_inv sp₁ _ esc he1) (sinv_ret _ _))
    (fun h1 => add_ch_cross sp₁ sp₂ b₁ b₂ 92 ⟨he1, he2, hp, hm, hu⟩ h1) ?_ hs
  intro h1 h2 hueq hs2
  refine cross_cast (l := (add_ch sp₂ b₂ 92).2.2.length) ?_ (add_ch_inv sp₂ b₂ 92 he2).2.1
  refine cross_seqLt (add_ch_inv sp₁ _ esc he1) (add_ch_inv sp₂ _ esc he2) (sinv_ret _ _)
    (fun h1' => add_ch_cross sp₁ sp₂ _ _ esc ⟨he1, he2, hp, hm, hueq⟩ h1') ?_ hs2
  intro _ _ hueq' _
  exact cross_ret _ _ _ _ hueq'

theorem addstr_esc_step_cross {T : Prop} (sp₁ sp₂ : SOpts) (b₁ b₂ : JserBuffer) (ch : Nat)
    (h : CrossHyp sp₁ sp₂ b₁ b₂) (hs : (addstr_esc_step sp₁ b₁ ch).1 = 0) :
    CrossOut T b₂.length (addstr_esc_step sp₁ b₁ ch) (addstr_esc_step sp₂ b₂ ch) := by
  unfold addstr_esc_step at hs ⊢
  by_cases h1 : ch = 8
  · simp only [if_pos h1] at hs ⊢; exact addescaped_cross sp₁ sp₂ b₁ b₂ 98 h hs
  · simp only [if_neg h1] at hs ⊢
    by_cases h2 : ch = 12
    · simp only [if_pos h2] at hs ⊢; exact addescaped_cross sp₁ sp₂ b₁ b₂ 102 h hs
    · simp only [if_neg h2] at hs ⊢
      by_cases h3 : ch = 10
      · simp only [if_pos h3] at hs ⊢; exact addescaped_cross sp₁ sp₂ b₁ b₂ 110 h hs
      · simp only [if_neg h3] at hs ⊢
        by_cases h4 : ch = 13
        · simp only [if_pos h4] at hs ⊢; exact addescaped_cross sp₁ sp₂ b₁ b₂ 114 h hs
        · simp only [if_neg h4] at hs ⊢
          by_cases h5 : ch = 9
          · simp only [if_pos h5] at hs ⊢; exact addescaped_cross sp₁ sp₂ b₁ b₂ 116 h hs
          · simp only [if_neg h5] at hs ⊢
            by_cases h6 : ch = 92 ∨ ch = 34
            · simp only [if_pos h6] at hs ⊢; exact addescaped_cross sp₁ sp₂ b₁ b₂ ch h hs
            · simp only [if_neg h6] at hs ⊢; exact add_ch_cross sp₁ sp₂ b₁ b₂ ch h hs

theorem addstr_esc_cross {T : Prop} (sp₁ sp₂ : SOpts) (str : List Nat)
    (he1 : sp₁.error = 0) (he2 : sp₂.error = 0)
    (hp : sp₂.pretty = sp₁.pretty) (hm : sp₂.max = sp₁.max) :
    ∀ (b₁ b₂ : JserBuffer), b₂.used = b₁.used → (addstr_esc sp₁ b₁ str).1 = 0 →
    CrossOut T b₂.length (addstr_esc sp₁ b₁ str) (addstr_esc sp₂ b₂ str) := by
  induction str with
  | nil => intro b₁ b₂ hu _; exact cross_ret _ _ _ _ hu
  | cons ch rest ih =>
    intro b₁ b₂ hu hs
    unfold addstr_esc at hs ⊢
    refine cross_seqLt (addstr_esc_step_inv sp₁ b₁ ch he1) (addstr_esc_step_inv sp₂ b₂ ch he2)
      (addstr_esc_inv sp₁ _ rest he1)
      (fun h1 => addstr_esc_step_cross sp₁ sp₂ b₁ b₂ ch ⟨he1, he2, hp, hm, hu⟩ h1) ?_ hs
    intro h1 h2 hueq hs2
    refine cross_cast (l := (addstr_esc_step sp₂ b₂ ch).2.2.length) ?_
      (addstr_esc_step_inv sp₂ b₂ ch he2).2.1
    exact ih _ _ hueq hs2

theorem addstr_cross {T : Prop} (sp₁ sp₂ : SOpts) (b₁ b₂ : JserBuffer) (str : List Nat)
    (h : CrossHyp sp₁ sp₂ b₁ b₂) (hs : (addstr sp₁ b₁ str).1 = 0) :
    CrossOut T b₂.length (addstr sp₁ b₁ str) (addstr sp₂ b₂ str) := by
  obtain ⟨he1, he2, hp, hm, hu⟩ := h
  unfold addstr at hs ⊢
  by_cases hE : JSER_ENABLE_ESCAPE = true
  · simp only [if_pos hE] at hs ⊢
    exact addstr_esc_cross sp₁ sp₂ str he1 he2 hp hm b₁ b₂ hu hs
  · exact absurd (by decide) hE

theorem add_quote_cross {T : Prop} (sp₁ sp₂ : SOpts) (b₁ b₂ : JserBuffer) (q : List Nat)
    (h : CrossHyp sp₁ sp₂ b₁ b₂) (hs : (add_quote sp₁ b₁ q).1 = 0) :
    CrossOut T b₂.length (add_quote sp₁ b₁ q) (add_quote sp₂ b₂ q) := by
  obtain ⟨he1, he2, hp, hm, hu⟩ := h
  unfold add_quote at hs ⊢
  refine cross_seqLt (add_ch_inv sp₁ b₁ 34 he1) (add_ch_inv sp₂ b₂ 34 he2)
    (sinv_seqLt (addstr_inv sp₁ _ q he1) (sinv_seqLt (add_ch_inv sp₁ _ 34 he1) (sinv_ret _ _)))
    (fun h1 => add_ch_cross sp₁ sp₂ b₁ b₂ 34 ⟨he1, he2, hp, hm, hu⟩ h1) ?_ hs
  intro h1 h2 hueq hs2
  refine cross_cast (l := (add_ch sp₂ b₂ 34).2.2.length) ?_ (add_ch_inv sp₂ b₂ 34 he2).2.1
  refine cross_seqLt (addstr_inv sp₁ _ q he1) (addstr_inv sp₂ _ q he2)
    (sinv_seqLt (add_ch_inv sp₁ _ 34 he1) (sinv_ret _ _))
    (fun h1' => addstr_cross sp₁ sp₂ _ _ q ⟨he1, he2, hp, hm, hueq⟩ h1') ?_ hs2
  intro h1' h2' hueq' hs3
  refine cross_cast (l := (addstr sp₂ (add_ch sp₂ b₂ 34).2.2 q).2.2.length) ?_
    (addstr_inv sp₂ _ q he2).2.1
  refine cross_seqLt (add_ch_inv sp₁ _ 34 he1) (add_ch_inv sp₂ _ 34 he2) (sinv_ret _ _)
    (fun h1'' => add_ch_cross sp₁ sp₂ _ _ 34 ⟨he1, he2, hp, hm, hueq'⟩ h1'') ?_ hs3
  intro _ _ hueq'' _
  exact cross_ret _ _ _ _ hueq''

theorem add_attr_cross {T : Prop} (sp₁ sp₂ : SOpts) (b₁ b₂ : JserBuffer) (a : List Nat)
    (h : CrossHyp sp₁ sp₂ b₁ b₂) (hs : (add_attr sp₁ b₁ a).1 = 0) :
    CrossOut T b₂.length (add_attr sp₁ b₁ a) (add_attr sp₂ b₂ a) := by
  obtain ⟨he1, he2, hp, hm, hu⟩ := h
  unfold add_attr at hs ⊢
  refine cross_seqLt (add_quote_inv sp₁ b₁ a he1) (add_quote_inv sp₂ b₂ a he2)
    (sinv_seqLt (add_ch_inv sp₁ _ 58 he1) (sinv_ret _ _))
    (fun h1 => add_quote_cross sp₁ sp₂ b₁ b₂ a ⟨he1, he2, hp, hm, hu⟩ h1) ?_ hs
  intro h1 h2 hueq hs2
  refine cross_cast (l := (add_quote sp₂ b₂ a).2.2.length) ?_ (add_quote_inv sp₂ b₂ a he2).2.1
  refine cross_seqLt (add_ch_inv sp₁ _ 58 he1) (add_ch_inv sp₂ _ 58 he2) (sinv_ret _ _)
    (fun h1' => add_ch_cross sp₁ sp₂ _ _ 58 ⟨he1, he2, hp, hm, hueq⟩ h1') ?_ hs2
  intro _ _ hueq' _
  exact cross_ret _ _ _ _ hueq'

theorem add_indent_go_cross {T : Prop} (sp₁ sp₂ : SOpts)
    (he1 : sp₁.error = 0) (he2 : sp₂.error = 0)
    (hp : sp₂.pretty = sp₁.pretty) (hm : sp₂.max = sp₁.max) :
    ∀ (n : Nat) (b₁ b₂ : JserBuffer), b₂.used = b₁.used → (add_indent_go sp₁ b₁ n).1 = 0 →
    CrossOut T b₂.length (add_indent_go sp₁ b₁ n) (add_indent_go sp₂ b₂ n) := by
  intro n
  induction n with
  | zero => intro b₁ b₂ hu _; exact cross_ret _ _ _ _ hu
  | succ n ih =>
    intro b₁ b₂ hu hs
    unfold add_indent_go at hs ⊢
    refine cross_seqLt (add_ch_inv sp₁ b₁ 9 he1) (add_ch_inv sp₂ b₂ 9 he2)
      (add_indent_go_inv sp₁ _ n he1)
      (fun h1 => add_ch_cross sp₁ sp₂ b₁ b₂ 9 ⟨he1, he2, hp, hm, hu⟩ h1) ?_ hs
    intro h1 h2 hueq hs2
    refine cross_cast (l := (add_ch sp₂ b₂ 9).2.2.length) ?_ (add_ch_inv sp₂ b₂ 9 he2).2.1
    exact ih _ _ hueq hs2

theorem add_indent_cross {T : Prop} (sp₁ sp₂ : SOpts) (b₁ b₂ : JserBuffer) (n : Nat)
    (h : CrossHyp sp₁ sp₂ b₁ b₂) (hs : (add_indent sp₁ b₁ n).1 = 0) :
    CrossOut T b₂.length (add_indent sp₁ b₁ n) (add_indent sp₂ b₂ n) := by
  obtain ⟨he1, he2, hp, hm, hu⟩ := h
  unfold add_indent at hs ⊢
  rw [hp]
  by_cases hq : sp₁.pretty = false
  · simp only [if_pos hq] at hs ⊢; exact cross_ret _ _ _ _ hu
  · simp only [if_neg hq] at hs ⊢; exact add_indent_go_cross sp₁ sp₂ he1 he2 hp hm n b₁ b₂ hu hs

theorem add_space_cross {T : Prop} (sp₁ sp₂ : SOpts) (b₁ b₂ : JserBuffer)
    (h : CrossHyp sp₁ sp₂ b₁ b₂) (hs : (add_space sp₁ b₁).1 = 0) :
    CrossOut T b₂.length (add_space sp₁ b₁) (add_space sp₂ b₂) := by
  obtain ⟨he1, he2, hp, hm, hu⟩ := h
  unfold add_space at hs ⊢
  rw [hp]
  by_cases hq : sp₁.pretty = false
  · simp only [if_pos hq] at hs ⊢; exact cross_ret _ _ _ _ hu
  · simp only [if_neg hq] at hs ⊢; exact add_ch_cross sp₁ sp₂ b₁ b₂ 32 ⟨he1, he2, hp, hm, hu⟩ hs

theorem add_newline_cross {T : Prop} (sp₁ sp₂ : SOpts) (b₁ b₂ : JserBuffer)
    (h : CrossHyp sp₁ sp₂ b₁ b₂) (hs : (add_newline sp₁ b₁).1 = 0) :
    CrossOut T b₂.length (add_newline sp₁ b₁) (add_newline sp₂ b₂) := by
  obtain ⟨he1, he2, hp, hm, hu⟩ := h
  unfold add_newline at hs ⊢
  rw [hp]
  by_cases hq : sp₁.pretty = false
  · simp only [if_pos hq] at hs ⊢; exact cross_ret _ _ _ _ hu
  · simp only [if_neg hq] at hs ⊢; exact add_ch_cross sp₁ sp₂ b₁ b₂ 10 ⟨he1, he2, hp, hm, hu⟩ hs

/-- A successful byte append: the space check passed and `used` advanced
by one. -/
theorem add_ch_ok {sp : SOpts} {b : JserBuffer} {ch : Nat}
    (hq : ¬ (1 + b.used > b.length)) :
    add_ch sp b ch = (0, sp, { b with used := b.used + 1,
                                      buf := if sp.dry_run then b.buf
                                             else b.buf ++ [ch % 256] }) := by
  unfold add_ch
  rw [if_neg hq]

/-- A failed byte append: the space check failed and the space error is
latched. -/
theorem add_ch_fail {sp : SOpts} {b : JserBuffer} {ch : Nat}
    (hq : 1 + b.used > b.length) :
    add_ch sp b ch
      = ((on_error sp JSER_ERR_SPACE).1, (on_error sp JSER_ERR_SPACE).2, b) := by
  unfold add_ch
  rw [if_pos hq]

theorem add_i64_cross {T : Prop} (sp₁ sp₂ : SOpts) (b₁ b₂ : JserBuffer) (v : Int)
    (h : CrossHyp sp₁ sp₂ b₁ b₂) (hs : (add_i64 sp₁ b₁ v).1 = 0) :
    CrossOut T b₂.length (add_i64 sp₁ b₁ v) (add_i64 sp₂ b₂ v) := by
  obtain ⟨he1, he2, hp, hm, hu⟩ := h
  unfold add_i64 at hs ⊢
  refine cross_seqLt (addstr_inv sp₁ b₁ _ he1) (addstr_inv sp₂ b₂ _ he2) (sinv_ret _ _)
    (fun h1 => addstr_cross sp₁ sp₂ b₁ b₂ _ ⟨he1, he2, hp, hm, hu⟩ h1) ?_ hs
  intro _ _ hueq _
  exact cross_ret _ _ _ _ hueq

theorem add_u64_cross {T : Prop} (sp₁ sp₂ : SOpts) (b₁ b₂ : JserBuffer) (v : Nat)
    (h : CrossHyp sp₁ sp₂ b₁ b₂) (hs : (add_u64 sp₁ b₁ v).1 = 0) :
    CrossOut T b₂.length (add_u64 sp₁ b₁ v) (add_u64 sp₂ b₂ v) := by
  obtain ⟨he1, he2, hp, hm, hu⟩ := h
  unfold add_u64 at hs ⊢
  refine cross_seqLt (addstr_inv sp₁ b₁ _ he1) (addstr_inv sp₂ b₂ _ he2) (sinv_ret _ _)
    (fun h1 => addstr_cross sp₁ sp₂ b₁ b₂ _ ⟨he1, he2, hp, hm, hu⟩ h1) ?_ hs
  intro _ _ hueq _
  exact cross_ret _ _ _ _ hueq

theorem add_bool_cross {T : Prop} (sp₁ sp₂ : SOpts) (b₁ b₂ : JserBuffer) (v : Bool)
    (h : CrossHyp sp₁ sp₂ b₁ b₂) (hs : (add_bool sp₁ b₁ v).1 = 0) :
    CrossOut T b₂.length (add_bool sp₁ b₁ v) (add_bool sp₂ b₂ v) := by
  obtain ⟨he1, he2, hp, hm, hu⟩ := h
  unfold add_bool at hs ⊢
  refine cross_seqLt (addstr_inv sp₁ b₁ _ he1) (addstr_inv sp₂ b₂ _ he2) (sinv_ret _ _)
    (fun h1 => addstr_cross sp₁ sp₂ b₁ b₂ _ ⟨he1, he2, hp, hm, hu⟩ h1) ?_ hs
  intro _ _ hueq _
  exact cross_ret _ _ _ _ hueq

/-- On a tight data union, every reachable buffer is tight (the default
buffer of a non-buffer union or an out-of-range index is trivially
tight). -/
theorem getBuf_tight {u : JserData} (h : bufP tightBuf u = true) (i : Nat) :
    tightBuf (u.getBuf i) = true := by
  cases u <;> simp only [JserData.getBuf]
  case buf bs =>
    simp only [bufP, List.all_eq_true] at h
    by_cases hi : i < bs.length
    · exact h (bs.getD i ⟨0, 0, []⟩) (by rw [List.getD_eq_getElem _ _ hi]; exact List.getElem_mem hi)
    · rw [List.getD_eq_default _ _ (by omega)]
      decide
  all_goals decide

theorem add_buffer_rest_cross {T : Prop} (sp₁ sp₂ : SOpts) (b₁ b₂ : JserBuffer) (bufv : JserBuffer)
    (hwf : bufv.used ≤ bufv.length) (hT : T → tightBuf bufv = true)
    (h : CrossHyp sp₁ sp₂ b₁ b₂) (hs : (add_buffer_rest sp₁ b₁ bufv).1 = 0) :
    CrossOut T b₂.length (add_buffer_rest sp₁ b₁ bufv) (add_buffer_rest sp₂ b₂ bufv) := by
  obtain ⟨he1, he2, hp, hm, hu⟩ := h
  unfold add_buffer_rest at hs ⊢
  by_cases p1 : b₁.length - b₁.used < base64_encoded_size bufv.length
  · rw [if_pos p1] at hs
    simp [on_error] at hs
    exact absurd hs (by decide)
  · rw [if_neg p1] at hs ⊢
    obtain ⟨W1, hstep1, hdry1, hwet1⟩ := add_buffer_step_ok sp₁ b₁ bufv hwf p1
    rw [hstep1] at hs ⊢
    dsimp only at hs ⊢
    rw [if_neg (by norm_num : ¬ ((0 : Int) < 0))] at hs ⊢
    set B1 : JserBuffer :=
      { b₁ with used := b₁.used + base64_encoded_size bufv.used, buf := b₁.buf ++ W1 } with hB1
    by_cases p2 : b₂.length - b₂.used < base64_encoded_size bufv.length
    · rw [if_pos p2]
      refine Or.inr ⟨?_, ?_, fun ht => ?_⟩
      · show (on_error sp₂ JSER_ERR_SPACE).1 < 0
        simp [on_error, JSER_ERR_SPACE]
      · show (on_error sp₂ JSER_ERR_SPACE).2.error = JSER_ERR_SPACE
        simp [on_error, he2]
      · have henceq : base64_encoded_size bufv.length = base64_encoded_size bufv.used := by
          have ht' := hT ht
          unfold tightBuf at ht'
          simp only [Bool.and_eq_true, decide_eq_true_eq] at ht'
          exact ht'.2
        by_cases q : 1 + B1.used > B1.length
        · rw [add_ch_fail q] at hs
          simp only [seqLt] at hs
          rw [if_pos (by simp only [on_error]; decide)] at hs
          exact absurd hs (by norm_num)
        · rw [add_ch_ok q] at hs ⊢
          simp only [seqLt]
          rw [if_neg (by norm_num : ¬ ((0 : Int) < 0))]
          show b₂.length < B1.used + 1
          have hB1u : B1.used = b₁.used + base64_encoded_size bufv.used := by rw [hB1]
          omega
    · rw [if_neg p2]
      obtain ⟨W2, hstep2, hdry2, hwet2⟩ := add_buffer_step_ok sp₂ b₂ bufv hwf p2
      rw [hstep2]
      dsimp only
      rw [if_neg (by norm_num : ¬ ((0 : Int) < 0))]
      set B2 : JserBuffer :=
        { b₂ with used := b₂.used + base64_encoded_size bufv.used, buf := b₂.buf ++ W2 } with hB2
      refine cross_cast (l := B2.length) ?_ (by rw [hB2])
      have hueq : B2.used = B1.used := by
        rw [hB1, hB2]
        show b₂.used + _ = b₁.used + _
        omega
      refine cross_seqLt (add_ch_inv sp₁ B1 34 he1) (add_ch_inv sp₂ B2 34 he2) (sinv_ret _ _)
        (fun h1 => add_ch_cross sp₁ sp₂ B1 B2 34 ⟨he1, he2, hp, hm, hueq⟩ h1) ?_ hs
      intro _ _ hueq' _
      exact cross_ret _ _ _ _ hueq'

theorem add_buffer_cross {T : Prop} (sp₁ sp₂ : SOpts) (b₁ b₂ : JserBuffer) (bufv : JserBuffer)
    (hwf : bufv.used ≤ bufv.length) (hT : T → tightBuf bufv = true)
    (h : CrossHyp sp₁ sp₂ b₁ b₂) (hs : (add_buffer sp₁ b₁ bufv).1 = 0) :
    CrossOut T b₂.length (add_buffer sp₁ b₁ bufv) (add_buffer sp₂ b₂ bufv) := by
  obtain ⟨he1, he2, hp, hm, hu⟩ := h
  unfold add_buffer at hs ⊢
  refine cross_seqLt (add_ch_inv sp₁ b₁ 34 he1) (add_ch_inv sp₂ b₂ 34 he2)
    (add_buffer_rest_inv sp₁ _ bufv he1 hwf)
    (fun h1 => add_ch_cross sp₁ sp₂ b₁ b₂ 34 ⟨he1, he2, hp, hm, hu⟩ h1) ?_ hs
  intro h1 h2 hueq hs2
  refine cross_cast (l := (add_ch sp₂ b₂ 34).2.2.length) ?_ (add_ch_inv sp₂ b₂ 34 he2).2.1
  exact add_buffer_rest_cross sp₁ sp₂ _ _ bufv hwf hT ⟨he1, he2, hp, hm, hueq⟩ hs2

theorem add_value_cross {T : Prop} (sp₁ sp₂ : SOpts) (b₁ b₂ : JserBuffer)
    (t : JserType) (u : JserData) (index : Nat)
    (hwf : bufP wfBuf u = true) (hT : T → bufP tightBuf u = true)
    (h : CrossHyp sp₁ sp₂ b₁ b₂) (hs : (add_value sp₁ b₁ t u index).1 = 0) :
    CrossOut T b₂.length (add_value sp₁ b₁ t u index) (add_value sp₂ b₂ t u index) := by
  obtain ⟨he1, he2, hp, hm, hu⟩ := h
  cases t
  all_goals simp only [add_value] at hs ⊢
  · refine cross_seqLt (add_i64_inv sp₁ b₁ _ he1) (add_i64_inv sp₂ b₂ _ he2) (sinv_ret _ _)
      (fun h1 => add_i64_cross sp₁ sp₂ b₁ b₂ _ ⟨he1, he2, hp, hm, hu⟩ h1) ?_ hs
    intro _ _ hueq _; exact cross_ret _ _ _ _ hueq
  · refine cross_seqLt (add_u64_inv sp₁ b₁ _ he1) (add_u64_inv sp₂ b₂ _ he2) (sinv_ret _ _)
      (fun h1 => add_u64_cross sp₁ sp₂ b₁ b₂ _ ⟨he1, he2, hp, hm, hu⟩ h1) ?_ hs
    intro _ _ hueq _; exact cross_ret _ _ _ _ hueq
  · refine cross_seqLt (add_bool_inv sp₁ b₁ _ he1) (add_bool_inv sp₂ b₂ _ he2) (sinv_ret _ _)
      (fun h1 => add_bool_cross sp₁ sp₂ b₁ b₂ _ ⟨he1, he2, hp, hm, hu⟩ h1) ?_ hs
    intro _ _ hueq _; exact cross_ret _ _ _ _ hueq
  · by_cases hi : index ≠ 0
    · simp only [if_pos hi] at hs
      simp [on_error] at hs
      exact absurd hs (by decide)
    · simp only [if_neg hi] at hs ⊢
      refine cross_seqLt (add_quote_inv sp₁ b₁ _ he1) (add_quote_inv sp₂ b₂ _ he2) (sinv_ret _ _)
        (fun h1 => add_quote_cross sp₁ sp₂ b₁ b₂ _ ⟨he1, he2, hp, hm, hu⟩ h1) ?_ hs
      intro _ _ hueq _; exact cross_ret _ _ _ _ hueq
  · refine cross_seqLt (add_buffer_inv sp₁ b₁ _ he1 (getBuf_wf hwf index))
      (add_buffer_inv sp₂ b₂ _ he2 (getBuf_wf hwf index)) (sinv_ret _ _)
      (fun h1 => add_buffer_cross sp₁ sp₂ b₁ b₂ _ (getBuf_wf hwf index)
        (fun ht => getBuf_tight (hT ht) index) ⟨he1, he2, hp, hm, hu⟩ h1) ?_ hs
    intro _ _ hueq _; exact cross_ret _ _ _ _ hueq
  · simp [on_error] at hs
    exact absurd hs (by decide)
  · simp [on_error] at hs
    exact absurd hs (by decide)

theorem addj_arr_go_cross {T : Prop} (sp₁ sp₂ : SOpts) (t : JserType) (u : JserData) (used : Nat)
    (he1 : sp₁.error = 0) (he2 : sp₂.error = 0)
    (hp : sp₂.pretty = sp₁.pretty) (hm : sp₂.max = sp₁.max)
    (hwf : bufP wfBuf u = true) (hT : T → bufP tightBuf u = true) :
    ∀ (n i : Nat) (b₁ b₂ : JserBuffer), b₂.used = b₁.used →
      (addj_arr_go sp₁ b₁ t u used i n).1 = 0 →
      CrossOut T b₂.length (addj_arr_go sp₁ b₁ t u used i n) (addj_arr_go sp₂ b₂ t u used i n) := by
  intro n
  induction n with
  | zero => intro i b₁ b₂ hu _; exact cross_ret _ _ _ _ hu
  | succ n ih =>
    intro i b₁ b₂ hu hs
    unfold addj_arr_go at hs ⊢
    dsimp only at hs ⊢
    refine cross_seqLt (add_value_inv sp₁ b₁ t u i he1 hwf) (add_value_inv sp₂ b₂ t u i he2 hwf)
      (sinv_seqLt (by split; exacts [sinv_ret _ _, add_ch_inv _ _ 44 he1])
        (addj_arr_go_inv sp₁ t u used he1 hwf n (i + 1) _))
      (fun h1 => add_value_cross sp₁ sp₂ b₁ b₂ t u i hwf hT ⟨he1, he2, hp, hm, hu⟩ h1) ?_ hs
    intro h1 h2 hueq hs2
    refine cross_cast (l := (add_value sp₂ b₂ t u i).2.2.length) ?_
      (add_value_inv sp₂ b₂ t u i he2 hwf).2.1
    refine cross_seqLt
      (by split; exacts [sinv_ret _ _, add_ch_inv _ _ 44 he1])
      (by split; exacts [sinv_ret _ _, add_ch_inv _ _ 44 he2])
      (addj_arr_go_inv sp₁ t u used he1 hwf n (i + 1) _) ?_ ?_ hs2
    · intro h1'
      by_cases hl : (i == used - 1) = true
      · simp only [if_pos hl]
        exact cross_ret _ _ _ _ hueq
      · simp only [if_neg hl] at h1' ⊢
        exact add_ch_cross sp₁ sp₂ _ _ 44 ⟨he1, he2, hp, hm, hueq⟩ h1'
    · intro h1' h2' hueq' hs3
      refine cross_cast (l := (if (i == used - 1) = true
          then ((0 : Int), sp₂, (add_value sp₂ b₂ t u i).2.2)
          else add_ch sp₂ (add_value sp₂ b₂ t u i).2.2 44).2.2.length) ?_ ?_
      · exact ih (i + 1) _ _ hueq' hs3
      · by_cases hl : (i == used - 1) = true
        · simp only [if_pos hl]
        · simp only [if_neg hl]
          exact (add_ch_inv sp₂ _ 44 he2).2.1

theorem addj_arr_cross {T : Prop} (sp₁ sp₂ : SOpts) (b₁ b₂ : JserBuffer)
    (t : JserType) (u : JserData) (used : Nat)
    (hwf : bufP wfBuf u = true) (hT : T → bufP tightBuf u = true)
    (h : CrossHyp sp₁ sp₂ b₁ b₂) (hs : (addj_arr sp₁ b₁ t u used).1 = 0) :
    CrossOut T b₂.length (addj_arr sp₁ b₁ t u used) (addj_arr sp₂ b₂ t u used) := by
  obtain ⟨he1, he2, hp, hm, hu⟩ := h
  unfold addj_arr at hs ⊢
  exact addj_arr_go_cross sp₁ sp₂ t u used he1 he2 hp hm hwf hT used 0 b₁ b₂ hu hs

/-- The master two-run comparison of the serializer, by induction on the
fuel: a successful reference run forces a second run over the same tree
(same pretty flag and depth limit, same entry watermark, any capacity and
dry-run flag) to either succeed with the same final watermark or fail with
the space error latched — and, when every buffer in the tree is tight, a
space failure only happens because the second capacity lies below the
reference run's final watermark. -/
theorem ser_cross (fuel : Nat) :
    (∀ (sp₁ sp₂ : SOpts) (b₁ b₂ : JserBuffer) (e : Jser) (depth : Nat),
      CrossHyp sp₁ sp₂ b₁ b₂ → elemOK wfBuf fuel e = true →
      (addj fuel sp₁ b₁ e depth).1 = 0 →
      CrossOut (elemOK tightBuf fuel e = true) b₂.length
        (addj fuel sp₁ b₁ e depth) (addj fuel sp₂ b₂ e depth)) ∧
    (∀ (sp₁ sp₂ : SOpts) (b₁ b₂ : JserBuffer) (l : List Jser) (is_arr : Bool) (depth : Nat),
      CrossHyp sp₁ sp₂ b₁ b₂ → treeOKgo wfBuf fuel l = true →
      (jsonify_go fuel sp₁ b₁ l is_arr depth).1 = 0 →
      CrossOut (treeOKgo tightBuf fuel l = true) b₂.length
        (jsonify_go fuel sp₁ b₁ l is_arr depth) (jsonify_go fuel sp₂ b₂ l is_arr depth)) ∧
    (∀ (sp₁ sp₂ : SOpts) (b₁ b₂ : JserBuffer) (j : List Jser) (jlen : Nat) (is_arr : Bool) (depth : Nat),
      CrossHyp sp₁ sp₂ b₁ b₂ → treeOKj wfBuf fuel j jlen = true →
      (jsonify fuel sp₁ j jlen b₁ is_arr depth).1 = 0 →
      CrossOut (treeOKj tightBuf fuel j jlen = true) b₂.length
        (jsonify fuel sp₁ j jlen b₁ is_arr depth) (jsonify fuel sp₂ j jlen b₂ is_arr depth)) := by
  induction fuel with
  | zero =>
    refine ⟨?_, ?_, ?_⟩
    · intro sp₁ sp₂ b₁ b₂ e depth hch hwf hs
      simp [addj, on_error] at hs
      exact absurd hs (by decide)
    · intro sp₁ sp₂ b₁ b₂ l is_arr depth hch hwf hs
      simp [jsonify_go, on_error] at hs
      exact absurd hs (by decide)
    · intro sp₁ sp₂ b₁ b₂ j jlen is_arr depth hch hwf hs
      simp [jsonify, on_error] at hs
      exact absurd hs (by decide)
  | succ fuel ih =>
    obtain ⟨ihA, ihG, ihJ⟩ := ih
    refine ⟨?_, ?_, ?_⟩
    · intro sp₁ sp₂ b₁ b₂ e depth hch hwf hs
      obtain ⟨he1, he2, hp, hm, hu⟩ := hch
      have hwf' : bufP wfBuf e.data = true ∧ treeOKj wfBuf fuel e.children e.length = true := by
        simpa [elemOK, Bool.and_eq_true] using hwf
      have hTd : elemOK tightBuf (fuel + 1) e = true → bufP tightBuf e.data = true := by
        intro ht
        simp only [elemOK, Bool.and_eq_true] at ht
        exact ht.1
      have hTj : elemOK tightBuf (fuel + 1) e = true →
          treeOKj tightBuf fuel e.children e.length = true := by
        intro ht
        simp only [elemOK, Bool.and_eq_true] at ht
        exact ht.2
      unfold addj at hs ⊢
      by_cases hobj : e.type = JserType.OBJECT
      · simp only [if_pos hobj] at hs ⊢
        by_cases hia : e.is_array = true
        · simp only [if_pos hia] at hs
          simp [on_error] at hs
          exact absurd hs (by decide)
        · simp only [if_neg hia] at hs ⊢
          refine cross_seqNe (add_newline_inv sp₁ b₁ he1) (add_newline_inv sp₂ b₂ he2) ?_
            (fun h1 => add_newline_cross sp₁ sp₂ b₁ b₂ ⟨he1, he2, hp, hm, hu⟩ h1) ?_ hs
          · exact sinv_seqLt
              ((ser_inv fuel).2.2 sp₁ _ e.children e.length false (depth + 1) he1 hwf'.2)
              (sinv_ret _ _)
          · intro h1 h2 hueq hs2
            refine cross_cast ?_ ((add_newline_inv sp₂ b₂ he2).2.1)
            refine cross_seqLt
              ((ser_inv fuel).2.2 sp₁ _ e.children e.length false (depth + 1) he1 hwf'.2)
              ((ser_inv fuel).2.2 sp₂ _ e.children e.length false (depth + 1) he2 hwf'.2)
              (sinv_ret _ _)
              (fun h1' => crossOut_mono hTj
                (ihJ sp₁ sp₂ _ _ e.children e.length false (depth + 1)
                  ⟨he1, he2, hp, hm, hueq⟩ hwf'.2 h1')) ?_ hs2
            intro _ _ hueq' _
            exact cross_ret _ _ _ _ hueq'
      · simp only [if_neg hobj] at hs ⊢
        by_cases harr : e.type = JserType.ARRAY
        · simp only [if_pos harr] at hs ⊢
          refine cross_seqNe (add_newline_inv sp₁ b₁ he1) (add_newline_inv sp₂ b₂ he2) ?_
            (fun h1 => add_newline_cross sp₁ sp₂ b₁ b₂ ⟨he1, he2, hp, hm, hu⟩ h1) ?_ hs
          · exact sinv_seqLt
              ((ser_inv fuel).2.2 sp₁ _ e.children e.length true (depth + 1) he1 hwf'.2)
              (sinv_ret _ _)
          · intro h1 h2 hueq hs2
            refine cross_cast ?_ ((add_newline_inv sp₂ b₂ he2).2.1)
            refine cross_seqLt
              ((ser_inv fuel).2.2 sp₁ _ e.children e.length true (depth + 1) he1 hwf'.2)
              ((ser_inv fuel).2.2 sp₂ _ e.children e.length true (depth + 1) he2 hwf'.2)
              (sinv_ret _ _)
              (fun h1' => crossOut_mono hTj
                (ihJ sp₁ sp₂ _ _ e.children e.length true (depth + 1)
                  ⟨he1, he2, hp, hm, hueq⟩ hwf'.2 h1')) ?_ hs2
            intro _ _ hueq' _
            exact cross_ret _ _ _ _ hueq'
        · simp only [if_neg harr] at hs ⊢
          by_cases hia : e.is_array = true
          · simp only [if_pos hia] at hs ⊢
            refine cross_seqLt (add_ch_inv sp₁ b₁ 91 he1) (add_ch_inv sp₂ b₂ 91 he2) ?_
              (fun h1 => add_ch_cross sp₁ sp₂ b₁ b₂ 91 ⟨he1, he2, hp, hm, hu⟩ h1) ?_ hs
            · exact sinv_seqLt (addj_arr_inv sp₁ _ e.type e.data e.used he1 hwf'.1)
                (sinv_seqLt (add_ch_inv sp₁ _ 93 he1) (sinv_ret _ _))
            · intro h1 h2 hueq hs2
              refine cross_cast ?_ ((add_ch_inv sp₂ b₂ 91 he2).2.1)
              refine cross_seqLt (addj_arr_inv sp₁ _ e.type e.data e.used he1 hwf'.1)
                (addj_arr_inv sp₂ _ e.type e.data e.used he2 hwf'.1)
                (sinv_seqLt (add_ch_inv sp₁ _ 93 he1) (sinv_ret _ _))
                (fun h1' => addj_arr_cross sp₁ sp₂ _ _ e.type e.data e.used hwf'.1 hTd
                  ⟨he1, he2, hp, hm, hueq⟩ h1') ?_ hs2
              intro h1' h2' hueq' hs3
              refine cross_cast ?_ ((addj_arr_inv sp₂ _ e.type e.data e.used he2 hwf'.1).2.1)
              refine cross_seqLt (add_ch_inv sp₁ _ 93 he1) (add_ch_inv sp₂ _ 93 he2) (sinv_ret _ _)
                (fun h1'' => add_ch_cross sp₁ sp₂ _ _ 93 ⟨he1, he2, hp, hm, hueq'⟩ h1'') ?_ hs3
              intro _ _ hueq'' _
              exact cross_ret _ _ _ _ hueq''
          · simp only [if_neg hia] at hs ⊢
            refine cross_seqLt (add_value_inv sp₁ b₁ e.type e.data 0 he1 hwf'.1)
              (add_value_inv sp₂ b₂ e.type e.data 0 he2 hwf'.1) (sinv_ret _ _)
              (fun h1 => add_value_cross sp₁ sp₂ b₁ b₂ e.type e.data 0 hwf'.1 hTd
                ⟨he1, he2, hp, hm, hu⟩ h1) ?_ hs
            intro _ _ hueq _
            exact cross_ret _ _ _ _ hueq
    · intro sp₁ sp₂ b₁ b₂ l is_arr depth hch hwf hs
      obtain ⟨he1, he2, hp, hm, hu⟩ := hch
      cases l with
      | nil =>
        unfold jsonify_go at hs ⊢
        exact cross_ret _ _ _ _ hu
      | cons e rest =>
        have hwf' : elemOK wfBuf fuel e = true ∧ treeOKgo wfBuf fuel rest = true := by
          simpa [treeOKgo, Bool.and_eq_true] using hwf
        have hTe : treeOKgo tightBuf (fuel + 1) (e :: rest) = true →
            elemOK tightBuf fuel e = true := by
          intro ht
          simp only [treeOKgo, Bool.and_eq_true] at ht
          exact ht.1
        have hTr : treeOKgo tightBuf (fuel + 1) (e :: rest) = true →
            treeOKgo tightBuf fuel rest = true := by
          intro ht
          simp only [treeOKgo, Bool.and_eq_true] at ht
          exact ht.2
        unfold jsonify_go at hs ⊢
        dsimp only at hs ⊢
        by_cases hnull : e.data.isNull = true
        · simp only [if_pos hnull] at hs
          simp [on_error] at hs
          exact absurd hs (by decide)
        · simp only [if_neg hnull] at hs ⊢
          have htail2 : ∀ (L : Nat) (B₁ B₂ : JserBuffer), B₂.used = B₁.used →
              B₂.length = L →
              (seqNe (add_newline sp₁ B₁) fun sp b =>
                jsonify_go fuel sp b rest is_arr depth).1 = 0 →
              CrossOut (treeOKgo tightBuf (fuel + 1) (e :: rest) = true) L
                (seqNe (add_newline sp₁ B₁) fun sp b =>
                  jsonify_go fuel sp b rest is_arr depth)
                (seqNe (add_newline sp₂ B₂) fun sp b =>
                  jsonify_go fuel sp b rest is_arr depth) := by
            intro L B₁ B₂ hueqB hlenB hsB
            subst hlenB
            refine cross_seqNe (add_newline_inv sp₁ B₁ he1) (add_newline_inv sp₂ B₂ he2)
              ((ser_inv fuel).2.1 sp₁ _ rest is_arr depth he1 hwf'.2)
              (fun hn1 => add_newline_cross sp₁ sp₂ B₁ B₂ ⟨he1, he2, hp, hm, hueqB⟩ hn1) ?_ hsB
            intro hn1 hn2 hueqn hs6
            refine cross_cast ?_ ((add_newline_inv sp₂ B₂ he2).2.1)
            exact crossOut_mono hTr
              (ihG sp₁ sp₂ _ _ rest is_arr depth ⟨he1, he2, hp, hm, hueqn⟩ hwf'.2 hs6)
          have htail : ∀ (L : Nat) (B₁ B₂ : JserBuffer), B₂.used = B₁.used →
              B₂.length = L →
              (seqLt (addj fuel sp₁ B₁ e depth) fun sp b =>
                seqLt (if rest.isEmpty = true then ((0 : Int), sp, b) else add_ch sp b 44) fun sp b =>
                seqNe (add_newline sp b) fun sp b =>
                jsonify_go fuel sp b rest is_arr depth).1 = 0 →
              CrossOut (treeOKgo tightBuf (fuel + 1) (e :: rest) = true) L
                (seqLt (addj fuel sp₁ B₁ e depth) fun sp b =>
                  seqLt (if rest.isEmpty = true then ((0 : Int), sp, b) else add_ch sp b 44) fun sp b =>
                  seqNe (add_newline sp b) fun sp b =>
                  jsonify_go fuel sp b rest is_arr depth)
                (seqLt (addj fuel sp₂ B₂ e depth) fun sp b =>
                  seqLt (if rest.isEmpty = true then ((0 : Int), sp, b) else add_ch sp b 44) fun sp b =>
                  seqNe (add_newline sp b) fun sp b =>
                  jsonify_go fuel sp b rest is_arr depth) := by
            intro L B₁ B₂ hueqB hlenB hsB
            subst hlenB
            refine cross_seqLt ((ser_inv fuel).1 sp₁ B₁ e depth he1 hwf'.1)
              ((ser_inv fuel).1 sp₂ B₂ e depth he2 hwf'.1) ?_
              (fun h1 => crossOut_mono hTe
                (ihA sp₁ sp₂ B₁ B₂ e depth ⟨he1, he2, hp, hm, hueqB⟩ hwf'.1 h1)) ?_ hsB
            · refine sinv_seqLt ?_ (sinv_seqNe (add_newline_inv sp₁ _ he1)
                ((ser_inv fuel).2.1 sp₁ _ rest is_arr depth he1 hwf'.2))
              by_cases hl : rest.isEmpty = true
              · rw [if_pos hl]
                exact sinv_ret _ _
              · rw [if_neg hl]
                exact add_ch_inv _ _ 44 he1
            · intro h1 h2 hueq1 hs4
              refine cross_cast ?_ (((ser_inv fuel).1 sp₂ B₂ e depth he2 hwf'.1).2.1)
              refine cross_seqLt' sp₁ sp₂ ?_ ?_ ?_ ?_ ?_ hs4
              · by_cases hl : rest.isEmpty = true
                · rw [if_pos hl]
                  exact Or.inl ⟨rfl, rfl⟩
                · rw [if_neg hl]
                  exact (add_ch_inv _ _ 44 he1).1
              · by_cases hl : rest.isEmpty = true
                · rw [if_pos hl]
                  exact Or.inl ⟨rfl, rfl⟩
                · rw [if_neg hl]
                  exact (add_ch_inv _ _ 44 he2).1
              · exact (sinv_seqNe (add_newline_inv sp₁ _ he1)
                  ((ser_inv fuel).2.1 sp₁ _ rest is_arr depth he1 hwf'.2)).2.2.1
              · intro h1c
                by_cases hl : rest.isEmpty = true
                · simp only [if_pos hl]
                  exact cross_ret _ _ _ _ hueq1
                · simp only [if_neg hl] at h1c ⊢
                  exact add_ch_cross sp₁ sp₂ _ _ 44 ⟨he1, he2, hp, hm, hueq1⟩ h1c
              · intro h1c h2c hueqc hs5
                by_cases hl : rest.isEmpty = true
                · simp only [if_pos hl] at hueqc hs5 ⊢
                  exact htail2 _ _ _ hueqc rfl hs5
                · simp only [if_neg hl] at hueqc hs5 ⊢
                  exact htail2 _ _ _ hueqc ((add_ch_inv sp₂ _ 44 he2).2.1) hs5
          refine cross_seqNe (add_indent_inv sp₁ b₁ (depth + 1) he1)
            (add_indent_inv sp₂ b₂ (depth + 1) he2) ?_
            (fun h1 => add_indent_cross sp₁ sp₂ b₁ b₂ (depth + 1) ⟨he1, he2, hp, hm, hu⟩ h1)
            ?_ hs
          · refine sinv_seqLt ?_ ?_
            · by_cases ha : is_arr = true
              · rw [if_pos ha]
                exact sinv_ret _ _
              · rw [if_neg ha]
                exact sinv_seqLt (add_attr_inv sp₁ _ e.attr he1)
                  (sinv_seqNe (add_space_inv sp₁ _ he1) (sinv_ret _ _))
            · refine sinv_seqLt ((ser_inv fuel).1 sp₁ _ e depth he1 hwf'.1) ?_
              refine sinv_seqLt ?_ ?_
              · by_cases hl : rest.isEmpty = true
                · rw [if_pos hl]
                  exact sinv_ret _ _
                · rw [if_neg hl]
                  exact add_ch_inv _ _ 44 he1
              · exact sinv_seqNe (add_newline_inv sp₁ _ he1)
                  ((ser_inv fuel).2.1 sp₁ _ rest is_arr depth he1 hwf'.2)
          · intro h1 h2 hueq hs2
            refine cross_cast ?_ ((add_indent_inv sp₂ b₂ (depth + 1) he2).2.1)
            refine cross_seqLt' sp₁ sp₂ ?_ ?_ ?_ ?_ ?_ hs2
            · by_cases ha : is_arr = true
              · rw [if_pos ha]
                exact Or.inl ⟨rfl, rfl⟩
              · rw [if_neg ha]
                exact (sinv_seqLt (add_attr_inv sp₁ _ e.attr he1)
                  (sinv_seqNe (add_space_inv sp₁ _ he1) (sinv_ret _ _))).1
            · by_cases ha : is_arr = true
              · rw [if_pos ha]
                exact Or.inl ⟨rfl, rfl⟩
              · rw [if_neg ha]
                exact (sinv_seqLt (add_attr_inv sp₂ _ e.attr he2)
                  (sinv_seqNe (add_space_inv sp₂ _ he2) (sinv_ret _ _))).1
            · refine (sinv_seqLt ((ser_inv fuel).1 sp₁ _ e depth he1 hwf'.1)
                (sinv_seqLt ?_ (sinv_seqNe (add_newline_inv sp₁ _ he1)
                  ((ser_inv fuel).2.1 sp₁ _ rest is_arr depth he1 hwf'.2)))).2.2.1
              by_cases hl : rest.isEmpty = true
              · rw [if_pos hl]
                exact sinv_ret _ _
              · rw [if_neg hl]
                exact add_ch_inv _ _ 44 he1
            · intro h1'
              by_cases ha : is_arr = true
              · simp only [if_pos ha]
                exact cross_ret _ _ _ _ hueq
              · simp only [if_neg ha] at h1' ⊢
                refine cross_seqLt (add_attr_inv sp₁ _ e.attr he1) (add_attr_inv sp₂ _ e.attr he2)
                  (sinv_seqNe (add_space_inv sp₁ _ he1) (sinv_ret _ _))
                  (fun ha1 => add_attr_cross sp₁ sp₂ _ _ e.attr ⟨he1, he2, hp, hm, hueq⟩ ha1)
                  ?_ h1'
                intro ha1 ha2 hueqa hsa
                refine cross_cast ?_ ((add_attr_inv sp₂ _ e.attr he2).2.1)
                refine cross_seqNe (add_space_inv sp₁ _ he1) (add_space_inv sp₂ _ he2)
                  (sinv_ret _ _)
                  (fun ha1' => add_space_cross sp₁ sp₂ _ _ ⟨he1, he2, hp, hm, hueqa⟩ ha1') ?_ hsa
                intro _ _ hueqa' _
                exact cross_ret _ _ _ _ hueqa'
            · intro h1' h2' hueq' hs3
              by_cases ha : is_arr = true
              · simp only [if_pos ha] at hueq' hs3 ⊢
                exact htail _ _ _ hueq' rfl hs3
              · simp only [if_neg ha] at hueq' hs3 ⊢
                exact htail _ _ _ hueq'
                  ((sinv_seqLt (add_attr_inv sp₂ _ e.attr he2)
                    (sinv_seqNe (add_space_inv sp₂ _ he2) (sinv_ret _ _))).2.1) hs3
    · intro sp₁ sp₂ b₁ b₂ j jlen is_arr depth hch hwf hs
      obtain ⟨he1, he2, hp, hm, hu⟩ := hch
      have hwf' : treeOKgo wfBuf fuel (j.take jlen) = true := by
        simpa [treeOKj] using hwf
      have hTg : treeOKj tightBuf (fuel + 1) j jlen = true →
          treeOKgo tightBuf fuel (j.take jlen) = true := by
        intro ht
        simpa [treeOKj] using ht
      unfold jsonify at hs ⊢
      rw [hm]
      by_cases hd : sp₁.max ≠ 0 ∧ depth > sp₁.max
      · simp only [if_pos hd] at hs
        simp [on_error] at hs
        exact absurd hs (by decide)
      · simp only [if_neg hd] at hs ⊢
        refine cross_seqNe (add_indent_inv sp₁ b₁ depth he1) (add_indent_inv sp₂ b₂ depth he2) ?_
          (fun h1 => add_indent_cross sp₁ sp₂ b₁ b₂ depth ⟨he1, he2, hp, hm, hu⟩ h1) ?_ hs
        · refine sinv_seqLt (add_ch_inv sp₁ _ _ he1) ?_
          refine sinv_seqNe (add_newline_inv sp₁ _ he1) ?_
          refine sinv_seqTail ((ser_inv fuel).2.1 sp₁ _ (j.take jlen) is_arr depth he1 hwf') ?_
          exact sinv_seqNe (add_indent_inv sp₁ _ depth he1)
            (sinv_seqLt (add_ch_inv sp₁ _ _ he1) (sinv_ret _ _))
        · intro h1 h2 hueq hs2
          refine cross_cast ?_ ((add_indent_inv sp₂ b₂ depth he2).2.1)
          refine cross_seqLt (add_ch_inv sp₁ _ _ he1) (add_ch_inv sp₂ _ _ he2) ?_
            (fun h1' => add_ch_cross sp₁ sp₂ _ _ _ ⟨he1, he2, hp, hm, hueq⟩ h1') ?_ hs2
          · refine sinv_seqNe (add_newline_inv sp₁ _ he1) ?_
            refine sinv_seqTail ((ser_inv fuel).2.1 sp₁ _ (j.take jlen) is_arr depth he1 hwf') ?_
            exact sinv_seqNe (add_indent_inv sp₁ _ depth he1)
              (sinv_seqLt (add_ch_inv sp₁ _ _ he1) (sinv_ret _ _))
          · intro h1' h2' hueq' hs3
            refine cross_cast ?_ ((add_ch_inv sp₂ _ (if is_arr = true then 91 else 123) he2).2.1)
            refine cross_seqNe (add_newline_inv sp₁ _ he1) (add_newline_inv sp₂ _ he2) ?_
              (fun hn1 => add_newline_cross sp₁ sp₂ _ _ ⟨he1, he2, hp, hm, hueq'⟩ hn1) ?_ hs3
            · refine sinv_seqTail ((ser_inv fuel).2.1 sp₁ _ (j.take jlen) is_arr depth he1 hwf') ?_
              exact sinv_seqNe (add_indent_inv sp₁ _ depth he1)
                (sinv_seqLt (add_ch_inv sp₁ _ _ he1) (sinv_ret _ _))
            · intro hn1 hn2 hueqn hs4
              refine cross_cast ?_ ((add_newline_inv sp₂ _ he2).2.1)
              refine cross_seqTail ((ser_inv fuel).2.1 sp₁ _ (j.take jlen) is_arr depth he1 hwf')
                ((ser_inv fuel).2.1 sp₂ _ (j.take jlen) is_arr depth he2 hwf') ?_
                (fun hg1 => crossOut_mono hTg
                  (ihG sp₁ sp₂ _ _ (j.take jlen) is_arr depth
                    ⟨he1, he2, hp, hm, hueqn⟩ hwf' hg1)) ?_ hs4
              · exact sinv_seqNe (add_indent_inv sp₁ _ depth he1)
                  (sinv_seqLt (add_ch_inv sp₁ _ _ he1) (sinv_ret _ _))
              · intro hg1 hg2 hueqg hs5
                refine cross_cast ?_
                  (((ser_inv fuel).2.1 sp₂ _ (j.take jlen) is_arr depth he2 hwf').2.1)
                refine cross_seqNe (add_indent_inv sp₁ _ depth he1) (add_indent_inv sp₂ _ depth he2)
                  (sinv_seqLt (add_ch_inv sp₁ _ _ he1) (sinv_ret _ _))
                  (fun hi1 => add_indent_cross sp₁ sp₂ _ _ depth ⟨he1, he2, hp, hm, hueqg⟩ hi1)
                  ?_ hs5
                intro hi1 hi2 hueqi hs6
                refine cross_cast ?_ ((add_indent_inv sp₂ _ depth he2).2.1)
                refine cross_seqLt (add_ch_inv sp₁ _ _ he1) (add_ch_inv sp₂ _ _ he2) (sinv_ret _ _)
                  (fun hc1 => add_ch_cross sp₁ sp₂ _ _ _ ⟨he1, he2, hp, hm, hueqi⟩ hc1) ?_ hs6
                intro _ _ hueqc _
                exact cross_ret _ _ _ _ hueqc

end Jser

namespace Jser

/-! ## Claim theorems: concrete instances -/

set_option maxHeartbeats 4000000 in
/-- C1: the round-trip property fails on the code: serializing a
NUL-terminated-string field containing a tab (bytes `[65, 9, 66]`, i.e.
`A<TAB>B`) escapes it in the output text, but deserializing that text
copies the token span verbatim (no unescaping), so the caller's variable
ends as `[65, 92, 116, 66]` (`A\tB`, four bytes) — not the original value
bit-for-bit, although both serialization and deserialization report
success. -/
theorem c1_roundtrip_not_bitforbit :
    (jser_serialize_to_buffer 100 [Jser.mk (strBytes "s") 32 0 .ASCIIZ (.asciiz [65, 9, 66]) false] 1 false ⟨64, 0, []⟩).1 = 0 ∧
    (jser_serialize_to_buffer 100 [Jser.mk (strBytes "s") 32 0 .ASCIIZ (.asciiz [65, 9, 66]) false] 1 false ⟨64, 0, []⟩).2.buf
      = strBytes "\x7b\"s\":\"A\\tB\"\x7d" ∧
    (jser_deserialize_from_asciiz 1000 [Jser.mk (strBytes "s") 32 0 .ASCIIZ (.asciiz [65, 9, 66]) false] 1 16
        (strBytes "\x7b\"s\":\"A\\tB\"\x7d")).1 = 0 ∧
    ((jser_deserialize_from_asciiz 1000 [Jser.mk (strBytes "s") 32 0 .ASCIIZ (.asciiz [65, 9, 66]) false] 1 16
        (strBytes "\x7b\"s\":\"A\\tB\"\x7d")).2.1.getD 0 jser0).data.getAsciiz = [65, 92, 116, 66] ∧
    ([65, 92, 116, 66] : List Nat) ≠ [65, 9, 66] := by
  decide

set_option maxHeartbeats 4000000 in
/-- C2: skipping an unknown key whose value is a nested object misaligns
the token stream (`distance` is invoked on the key token, so it always
yields 1): deserializing the bytes of the text holding key `x` with object
value (`b` mapped to 9) followed by `a` mapped to 4, over descriptors
`(a=1, b=2, c=3)`, reports success and leaves `(4, 9, 3)` — the nested
`b` was bound at the outer level instead of being skipped. -/
theorem c2_unknown_key_subtree_misbind :
    (jser_deserialize_from_asciiz 1000 [mkLong "a" 1, mkLong "b" 2, mkLong "c" 3] 3 16
        (strBytes "\x7b\"x\":\x7b\"b\":9\x7d,\"a\":4\x7d")).1 = 0 ∧
    longsOf (jser_deserialize_from_asciiz 1000 [mkLong "a" 1, mkLong "b" 2, mkLong "c" 3] 3 16
        (strBytes "\x7b\"x\":\x7b\"b\":9\x7d,\"a\":4\x7d")).2.1 = [4, 9, 3] ∧
    ((9 : Int) ≠ 2) := by
  decide

set_option maxHeartbeats 4000000 in
/-- C6: binding the array `[1, 2]` (two elements) to an Array descriptor of
capacity 1 (count tracking enabled) fails with the space error and resets
`used` to 0, but the element loop's capacity check is `k > length`, so an
element is first bound at slot index 1, which equals the capacity (an
out-of-bounds write in the C): the ghost list of attempted slot indices is
`[0, 1]`. -/
theorem c6_array_binds_at_capacity :
    (json_to_element 100 ⟨0, 0, false, false⟩ (Jser.mk (strBytes "a") 1 1 .ARRAY (.tree [mkLong "" 7]) false)
        [⟨.ARRAY, 5, 10, 2⟩, ⟨.PRIMITIVE, 6, 7, 0⟩, ⟨.PRIMITIVE, 8, 9, 0⟩] 15
        (strBytes "\x7b\"a\":[1,2]\x7d")).1 = JSER_ERR_SPACE ∧
    (json_to_element 100 ⟨0, 0, false, false⟩ (Jser.mk (strBytes "a") 1 1 .ARRAY (.tree [mkLong "" 7]) false)
        [⟨.ARRAY, 5, 10, 2⟩, ⟨.PRIMITIVE, 6, 7, 0⟩, ⟨.PRIMITIVE, 8, 9, 0⟩] 15
        (strBytes "\x7b\"a\":[1,2]\x7d")).2.1.error = JSER_ERR_SPACE ∧
    (json_to_element 100 ⟨0, 0, false, false⟩ (Jser.mk (strBytes "a") 1 1 .ARRAY (.tree [mkLong "" 7]) false)
        [⟨.ARRAY, 5, 10, 2⟩, ⟨.PRIMITIVE, 6, 7, 0⟩, ⟨.PRIMITIVE, 8, 9, 0⟩] 15
        (strBytes "\x7b\"a\":[1,2]\x7d")).2.2.1.used = 0 ∧
    (json_to_element 100 ⟨0, 0, false, false⟩ (Jser.mk (strBytes "a") 1 1 .ARRAY (.tree [mkLong "" 7]) false)
        [⟨.ARRAY, 5, 10, 2⟩, ⟨.PRIMITIVE, 6, 7, 0⟩, ⟨.PRIMITIVE, 8, 9, 0⟩] 15
        (strBytes "\x7b\"a\":[1,2]\x7d")).2.2.2 = [0, 1] ∧
    (Jser.mk (strBytes "a") 1 1 JserType.ARRAY (.tree [mkLong "" 7]) false).length = 1 := by
  decide

set_option maxHeartbeats 4000000 in
/-- C9: `copy` cannot copy a tree containing a nonempty container: the
wraparound guard is written `k < k + st`, which is true whenever the
subtree copied a positive number of nodes, so copying a one-child object
into an ample pool of 8 nodes fails with a negative status and reports an
output count of zero — the claimed shape-preserving copy never happens. -/
theorem c9_copy_fails_on_containers :
    (jser_copy 100 [Jser.mk (strBytes "o") 1 1 .OBJECT (.tree [mkLong "x" 7]) false] 1
        (List.replicate 8 jser0) 8).1 = -1 ∧
    (jser_copy 100 [Jser.mk (strBytes "o") 1 1 .OBJECT (.tree [mkLong "x" 7]) false] 1
        (List.replicate 8 jser0) 8).2.2 = 0 := by
  decide

/-! ## Claim theorems: integer codec (C7, C8) -/

/-- C7 counterexample: the claim fails twice on the code.  The signed
routine does not leave the output at zero on failure: parsing the empty
string with the caller's variable at 7 returns a negative status but
leaves 7.  And the unsigned routine does not reject every overflowing
value: the 20-digit input whose decimal value is `20496382304121724020`
(which is at least `2 ^ 64`) is accepted with status 0, returning the
wrapped value `2049638230412172404`. -/
theorem c7_failure_output_cex :
    str_to_i64 [] 10 7 = (-1, 7) ∧ ((7 : Int) ≠ 0) ∧
    str_to_u64 (strBytes "20496382304121724020") 10 = (0, 2049638230412172404) ∧
    Nat.ofDigits 10 (((strBytes "20496382304121724020").map (fun c => c - 48)).reverse)
      = 20496382304121724020 ∧
    U64 ≤ 20496382304121724020 ∧ (2049638230412172404 : Nat) ≠ 20496382304121724020 := by
  decide

/-- On every failure, the accumulation loop of `str_to_u64` returns the
pair `(-1, 0)`. -/
theorem str_to_u64_go_fail (base : Nat) :
    ∀ (l : List Nat) (t : Nat), (str_to_u64_go base t l).1 < 0 → str_to_u64_go base t l = (-1, 0) := by
  intro l
  induction l with
  | nil => intro t h; simp [str_to_u64_go] at h
  | cons c rest ih =>
    intro t h
    simp only [str_to_u64_go] at h ⊢
    split at h
    · rename_i hdg
      simp only [if_pos hdg]
    · rename_i hdg
      split at h
      · rename_i h1
        simp only [if_neg hdg, if_pos h1]
      · rename_i h1
        split at h
        · rename_i h2
          simp only [if_neg hdg, if_neg h1, if_pos h2]
        · rename_i h2
          simp only [if_neg hdg, if_neg h1, if_neg h2]
          exact ih _ h

/-- A character that is no digit of the base makes the accumulation loop
fail with output zero, whatever the accumulator holds. -/
theorem str_to_u64_go_bad (base : Nat) :
    ∀ (l : List Nat) (t : Nat), (∃ c ∈ l, digit c base < 0) → str_to_u64_go base t l = (-1, 0) := by
  intro l
  induction l with
  | nil => intro t h; simp at h
  | cons c rest ih =>
    intro t h
    simp only [str_to_u64_go]
    rcases h with ⟨d, hd, hdig⟩
    rcases List.mem_cons.mp hd with h1 | h1
    · subst h1
      simp [hdig]
    · split
      · rfl
      · split
        · rfl
        · split
          · rfl
          · exact ih _ ⟨d, h1, hdig⟩

/-- C8 (supporting half of the amended C7): `str_to_u64` rejects the empty
string, any string containing a character that is not a digit of the base,
and (whenever it fails) leaves the output value at zero; `str_to_i64`
leaves the output parameter unmodified on every failure. -/
theorem c7_parse_failures_amended :
    (∀ base : Nat, str_to_u64 [] base = (-1, 0)) ∧
    (∀ (s : List Nat) (base : Nat), (∃ c ∈ s, digit c base < 0) → str_to_u64 s base = (-1, 0)) ∧
    (∀ (s : List Nat) (base : Nat), (str_to_u64 s base).1 < 0 → (str_to_u64 s base).2 = 0) ∧
    (∀ (s : List Nat) (base : Nat) (out : Int), (str_to_i64 s base out).1 < 0 →
      (str_to_i64 s base out).2 = out) := by
  refine ⟨fun base => by simp [str_to_u64], ?_, ?_, ?_⟩
  · intro s base hc
    unfold str_to_u64
    split
    · rfl
    · exact str_to_u64_go_bad base s 0 hc
  · intro s base h
    unfold str_to_u64 at h ⊢
    split at h
    · simp_all
    · rename_i hne
      rw [if_neg hne, str_to_u64_go_fail base s 0 h]
  · intro s base out h
    unfold str_to_i64 at h ⊢
    rcases hu : str_to_u64 (if (decide (0 < s.length ∧ s.getD 0 0 = 45) : Bool) then s.drop 1 else s) base with ⟨r, t⟩
    simp only [hu] at h ⊢
    split at h
    · simp_all
    · simp_all

/-- C8: signed-to-string writes a leading minus sign and hands the exact
magnitude to the unsigned routine for every representable negative
`int64_t` (the wrap of the negation at the minimum value composed with the
conversion to `uint64_t` yields the true magnitude), and in particular the
minimum value prints as the 20 bytes of `-9223372036854775808`. -/
theorem c8_i64_min_magnitude :
    (∀ s : Int, -9223372036854775808 ≤ s → s < 0 →
      i64_to_str s 10 = 45 :: u64_to_str (-s).toNat 10) ∧
    i64_to_str (-9223372036854775808) 10 = strBytes "-9223372036854775808" := by
  constructor
  · intro s h1 h2
    have hmag : ((wrap64s (-s)) % (U64 : Int)).toNat = (-s).toNat := by
      unfold wrap64s U64
      omega
    unfold i64_to_str
    rw [if_pos h2, hmag]
  · decide

/-- Witness for C8 at a concrete negative input. -/
theorem c8_i64_min_magnitude_witness :
    i64_to_str (-5) 10 = 45 :: u64_to_str (-(-5 : Int)).toNat 10 :=
  c8_i64_min_magnitude.1 (-5) (by decide) (by decide)

/-- Witness for the amended C7 at concrete inputs. -/
theorem c7_parse_failures_amended_witness :
    str_to_u64 [] 10 = (-1, 0) ∧ str_to_u64 [65] 10 = (-1, 0) ∧
    (str_to_i64 [33] 10 5).1 < 0 ∧ (str_to_i64 [33] 10 5).2 = 5 :=
  ⟨c7_parse_failures_amended.1 10,
   c7_parse_failures_amended.2.1 [65] 10 ⟨65, by decide, by decide⟩,
   by decide,
   c7_parse_failures_amended.2.2.2 [33] 10 5 (by decide)⟩

/-! ## Entry-point characterizations (definitional). -/

theorem jser_serialized_length_eq (fuel : Nat) (j : List Jser) (jlen : Nat) (pretty : Bool) :
    jser_serialized_length fuel j jlen pretty
      = (if (jsonify fuel ⟨JSER_MAX_DEPTH, JSER_OK, pretty, true⟩ j jlen ⟨SIZE_MAX, 0, []⟩ false 0).1 < 0
         then ((jsonify fuel ⟨JSER_MAX_DEPTH, JSER_OK, pretty, true⟩ j jlen ⟨SIZE_MAX, 0, []⟩ false 0).2.1.error, 0)
         else (0, (jsonify fuel ⟨JSER_MAX_DEPTH, JSER_OK, pretty, true⟩ j jlen ⟨SIZE_MAX, 0, []⟩ false 0).2.2.used)) := rfl

theorem jser_serialize_to_buffer_eq (fuel : Nat) (j : List Jser) (jlen : Nat) (pretty : Bool) (b : JserBuffer) :
    jser_serialize_to_buffer fuel j jlen pretty b
      = (if (jsonify fuel ⟨JSER_MAX_DEPTH, JSER_OK, pretty, false⟩ j jlen b false 0).1 < 0
         then (jsonify fuel ⟨JSER_MAX_DEPTH, JSER_OK, pretty, false⟩ j jlen b false 0).2.1.error
         else JSER_OK,
         (jsonify fuel ⟨JSER_MAX_DEPTH, JSER_OK, pretty, false⟩ j jlen b false 0).2.2) := rfl

theorem jser_serialize_to_asciiz_eq (fuel : Nat) (j : List Jser) (jlen : Nat) (pretty : Bool) (asciiz : List Nat) :
    jser_serialize_to_asciiz fuel j jlen pretty asciiz
      = if asciiz.length < 1 then (-1, asciiz)
        else if (jsonify fuel ⟨JSER_MAX_DEPTH, JSER_OK, pretty, false⟩ j jlen ⟨asciiz.length - 1, 0, []⟩ false 0).1 < 0
        then ((jsonify fuel ⟨JSER_MAX_DEPTH, JSER_OK, pretty, false⟩ j jlen ⟨asciiz.length - 1, 0, []⟩ false 0).2.1.error,
              (overlay (jsonify fuel ⟨JSER_MAX_DEPTH, JSER_OK, pretty, false⟩ j jlen ⟨asciiz.length - 1, 0, []⟩ false 0).2.2.buf asciiz).set 0 0)
        else (JSER_OK,
              overlay ((jsonify fuel ⟨JSER_MAX_DEPTH, JSER_OK, pretty, false⟩ j jlen ⟨asciiz.length - 1, 0, []⟩ false 0).2.2.buf ++ [0]) asciiz) := rfl

/-- C3: for every descriptor tree whose buffers are well formed
(`occupied ≤ capacity`) and for both pretty and compact modes, if the
dry-run measuring call reports size `sz` and serializing the same tree
into a buffer of any capacity `L` succeeds, the produced output occupies
exactly `sz` bytes — both by the `used` watermark and by the number of
bytes actually appended — and the dry run appends no byte to any
buffer. -/
theorem c3_length_serialize_consistency (fuel : Nat) (j : List Jser) (jlen : Nat) (pretty : Bool)
    (L sz : Nat) (out : JserBuffer)
    (hwf : treeOKj wfBuf fuel j jlen = true)
    (hlen : jser_serialized_length fuel j jlen pretty = (0, sz))
    (hser : jser_serialize_to_buffer fuel j jlen pretty ⟨L, 0, []⟩ = (0, out)) :
    out.used = sz ∧ out.buf.length = sz ∧
    (∀ b : JserBuffer,
      (jsonify fuel ⟨JSER_MAX_DEPTH, JSER_OK, pretty, true⟩ j jlen b false 0).2.2.buf = b.buf) := by
  rw [jser_serialized_length_eq] at hlen
  rw [jser_serialize_to_buffer_eq] at hser
  have hinv1 := (ser_inv fuel).2.2 ⟨JSER_MAX_DEPTH, JSER_OK, pretty, true⟩ ⟨SIZE_MAX, 0, []⟩ j jlen false 0 rfl hwf
  have hinv2 := (ser_inv fuel).2.2 ⟨JSER_MAX_DEPTH, JSER_OK, pretty, false⟩ ⟨L, 0, []⟩ j jlen false 0 rfl hwf
  have hcr0 := (ser_cross fuel).2.2 ⟨JSER_MAX_DEPTH, JSER_OK, pretty, true⟩
    ⟨JSER_MAX_DEPTH, JSER_OK, pretty, false⟩ ⟨SIZE_MAX, 0, []⟩ ⟨L, 0, []⟩ j jlen false 0
    ⟨rfl, rfl, rfl, rfl, rfl⟩ hwf
  rcases hx : jsonify fuel ⟨JSER_MAX_DEPTH, JSER_OK, pretty, true⟩ j jlen ⟨SIZE_MAX, 0, []⟩ false 0 with ⟨r₁, spd, bd⟩
  rcases hy : jsonify fuel ⟨JSER_MAX_DEPTH, JSER_OK, pretty, false⟩ j jlen ⟨L, 0, []⟩ false 0 with ⟨r₂, spw, bw⟩
  rw [hx] at hlen hinv1 hcr0
  rw [hy] at hser hinv2 hcr0
  unfold SInv at hinv1 hinv2
  dsimp only at hlen hser hinv1 hinv2 hcr0
  obtain ⟨hst1, -, -, -, -, -⟩ := hinv1
  obtain ⟨hst2, -, -, -, -, hwet2⟩ := hinv2
  rcases hst1 with ⟨h10, -⟩ | ⟨hneg1, -, herr1⟩
  · rcases hst2 with ⟨h20, -⟩ | ⟨hneg2, -, herr2⟩
    · rw [if_neg (by omega), Prod.mk.injEq] at hlen
      rw [if_neg (by omega), Prod.mk.injEq] at hser
      obtain ⟨-, hsz⟩ := hlen
      obtain ⟨-, hout⟩ := hser
      subst hout
      have hcr1 := hcr0 h10
      unfold CrossOut at hcr1
      dsimp only at hcr1
      rcases hcr1 with ⟨-, hueq⟩ | ⟨hnegc, -, -⟩
      · refine ⟨by omega, ?_, ?_⟩
        · obtain ⟨E, hE, hEn⟩ := hwet2 rfl
          rw [hE]
          simp only [List.nil_append]
          omega
        · intro b
          exact ((ser_inv fuel).2.2 ⟨JSER_MAX_DEPTH, JSER_OK, pretty, true⟩ b j jlen false 0 rfl hwf).2.2.2.2.1 rfl
      · omega
    · rw [if_pos (by omega), Prod.mk.injEq] at hser
      obtain ⟨h1, -⟩ := hser
      omega
  · rw [if_pos (by omega), Prod.mk.injEq] at hlen
    obtain ⟨h1, -⟩ := hlen
    omega

/-- Witness for C3 at a concrete tree. -/
theorem c3_length_serialize_consistency_witness :
    treeOKj wfBuf 100 [mkLong "a" 5] 1 = true ∧
    jser_serialized_length 100 [mkLong "a" 5] 1 false = (0, 7) ∧
    jser_serialize_to_buffer 100 [mkLong "a" 5] 1 false ⟨9, 0, []⟩
      = (0, ⟨9, 7, [123, 34, 97, 34, 58, 53, 125]⟩) ∧
    (⟨9, 7, [123, 34, 97, 34, 58, 53, 125]⟩ : JserBuffer).used = 7 :=
  ⟨by decide, by decide, by decide,
   (c3_length_serialize_consistency 100 [mkLong "a" 5] 1 false 9 7
     ⟨9, 7, [123, 34, 97, 34, 58, 53, 125]⟩ (by decide) (by decide) (by decide)).1⟩

set_option maxHeartbeats 4000000 in
/-- C5 counterexample: the exact-capacity half of the claim fails on a
binary-buffer field with occupied count below capacity.  The descriptor
`b` holds a `jser_buffer_t` of capacity 4 with 0 occupied bytes: the
measured size is 8 (`\x7b"b":""\x7d`), but serializing into a buffer of
exactly 8 bytes fails with the space error, because `add_buffer`'s
pre-check demands the encoded size of the *capacity* (8 characters)
while the write consumes only the encoded size of the occupied count
(0 characters). -/
theorem c5_exact_capacity_cex :
    jser_serialized_length 100 [Jser.mk (strBytes "b") 0 0 .BUFFER (.buf [⟨4, 0, []⟩]) false] 1 false = (0, 8) ∧
    (jser_serialize_to_buffer 100 [Jser.mk (strBytes "b") 0 0 .BUFFER (.buf [⟨4, 0, []⟩]) false] 1 false ⟨8, 0, []⟩).1
      = JSER_ERR_SPACE ∧
    treeOKj wfBuf 100 [Jser.mk (strBytes "b") 0 0 .BUFFER (.buf [⟨4, 0, []⟩]) false] 1 = true ∧
    JSER_ERR_SPACE ≠ JSER_OK := by
  decide

/-- C5 amended: serializing into a buffer one byte smaller than the
measured size always fails with the insufficient-space error; serializing
into a buffer of exactly the measured size succeeds whenever every
`jser_buffer_t` in the tree is *tight* (the base64-encoded size of its
capacity equals that of its occupied count, e.g. trees without binary
buffer fields or with full buffers) — without tightness the space
pre-check of `add_buffer` can demand more bytes than the write consumes
and the exact-size run fails (see the counterexample). -/
theorem c5_capacity_enforcement_amended (fuel : Nat) (j : List Jser) (jlen : Nat) (pretty : Bool) (sz : Nat)
    (hwf : treeOKj wfBuf fuel j jlen = true)
    (hlen : jser_serialized_length fuel j jlen pretty = (0, sz)) :
    (0 < sz → (jser_serialize_to_buffer fuel j jlen pretty ⟨sz - 1, 0, []⟩).1 = JSER_ERR_SPACE) ∧
    (treeOKj tightBuf fuel j jlen = true →
      (jser_serialize_to_buffer fuel j jlen pretty ⟨sz, 0, []⟩).1 = JSER_OK ∧
      (jser_serialize_to_buffer fuel j jlen pretty ⟨sz, 0, []⟩).2.used = sz) := by
  rw [jser_serialized_length_eq] at hlen
  have hinv1 := (ser_inv fuel).2.2 ⟨JSER_MAX_DEPTH, JSER_OK, pretty, true⟩ ⟨SIZE_MAX, 0, []⟩ j jlen false 0 rfl hwf
  rcases hx : jsonify fuel ⟨JSER_MAX_DEPTH, JSER_OK, pretty, true⟩ j jlen ⟨SIZE_MAX, 0, []⟩ false 0 with ⟨r₁, spd, bd⟩
  rw [hx] at hlen hinv1
  unfold SInv at hinv1
  dsimp only at hlen hinv1
  obtain ⟨hst1, -, -, -, -, -⟩ := hinv1
  rcases hst1 with ⟨h10, -⟩ | ⟨hneg1, -, herr1⟩
  · rw [if_neg (by omega), Prod.mk.injEq] at hlen
    obtain ⟨-, hsz⟩ := hlen
    constructor
    · intro hpos
      have hinv2 := (ser_inv fuel).2.2 ⟨JSER_MAX_DEPTH, JSER_OK, pretty, false⟩ ⟨sz - 1, 0, []⟩ j jlen false 0 rfl hwf
      have hcr := (ser_cross fuel).2.2 ⟨JSER_MAX_DEPTH, JSER_OK, pretty, true⟩
        ⟨JSER_MAX_DEPTH, JSER_OK, pretty, false⟩ ⟨SIZE_MAX, 0, []⟩ ⟨sz - 1, 0, []⟩ j jlen false 0
        ⟨rfl, rfl, rfl, rfl, rfl⟩ hwf
      rw [jser_serialize_to_buffer_eq]
      rcases hy : jsonify fuel ⟨JSER_MAX_DEPTH, JSER_OK, pretty, false⟩ j jlen ⟨sz - 1, 0, []⟩ false 0 with ⟨r₂, spw, bw⟩
      rw [hx, hy] at hcr
      rw [hy] at hinv2
      unfold SInv at hinv2
      dsimp only at hcr hinv2 ⊢
      obtain ⟨-, -, -, hbound2, -, -⟩ := hinv2
      have hcr1 := hcr h10
      unfold CrossOut at hcr1
      dsimp only at hcr1
      rcases hcr1 with ⟨h20, hueq⟩ | ⟨hnegc, herrc, -⟩
      · have hb := hbound2 (by omega)
        omega
      · rw [if_pos (by omega)]
        exact herrc
    · intro ht
      have hinv2 := (ser_inv fuel).2.2 ⟨JSER_MAX_DEPTH, JSER_OK, pretty, false⟩ ⟨sz, 0, []⟩ j jlen false 0 rfl hwf
      have hcr := (ser_cross fuel).2.2 ⟨JSER_MAX_DEPTH, JSER_OK, pretty, true⟩
        ⟨JSER_MAX_DEPTH, JSER_OK, pretty, false⟩ ⟨SIZE_MAX, 0, []⟩ ⟨sz, 0, []⟩ j jlen false 0
        ⟨rfl, rfl, rfl, rfl, rfl⟩ hwf
      rw [jser_serialize_to_buffer_eq]
      rcases hy : jsonify fuel ⟨JSER_MAX_DEPTH, JSER_OK, pretty, false⟩ j jlen ⟨sz, 0, []⟩ false 0 with ⟨r₂, spw, bw⟩
      rw [hx, hy] at hcr
      rw [hy] at hinv2
      unfold SInv at hinv2
      dsimp only at hcr hinv2 ⊢
      have hcr1 := hcr h10
      unfold CrossOut at hcr1
      dsimp only at hcr1
      rcases hcr1 with ⟨h20, hueq⟩ | ⟨hnegc, -, hbnd⟩
      · rw [if_neg (by omega)]
        exact ⟨rfl, by omega⟩
      · have := hbnd ht
        omega
  · rw [if_pos (by omega), Prod.mk.injEq] at hlen
    obtain ⟨h1, -⟩ := hlen
    omega

/-- Witness for the amended C5 at a concrete (buffer-free, hence tight)
tree of measured size 7. -/
theorem c5_capacity_enforcement_amended_witness :
    treeOKj wfBuf 100 [mkLong "a" 5] 1 = true ∧
    jser_serialized_length 100 [mkLong "a" 5] 1 false = (0, 7) ∧
    treeOKj tightBuf 100 [mkLong "a" 5] 1 = true ∧
    (jser_serialize_to_buffer 100 [mkLong "a" 5] 1 false ⟨6, 0, []⟩).1 = JSER_ERR_SPACE ∧
    (jser_serialize_to_buffer 100 [mkLong "a" 5] 1 false ⟨7, 0, []⟩).1 = JSER_OK :=
  ⟨by decide, by decide, by decide,
   (c5_capacity_enforcement_amended 100 [mkLong "a" 5] 1 false 7 (by decide) (by decide)).1 (by decide),
   ((c5_capacity_enforcement_amended 100 [mkLong "a" 5] 1 false 7 (by decide) (by decide)).2 (by decide)).1⟩

/-- C10: `jser_serialize_to_asciiz` rejects a zero-length destination with
status `-1` and leaves it unchanged; with at least one byte of room, a
successful call stores the serialized text followed by one NUL terminator
within the destination (the bytes beyond are the prior contents), and a
failing call returns a negative status and stores a NUL at the first byte
— so the destination always holds a NUL-terminated string after the
call. -/
theorem c10_asciiz_nul_behaviour (fuel : Nat) (j : List Jser) (jlen : Nat) (pretty : Bool) (asciiz : List Nat)
    (hwf : treeOKj wfBuf fuel j jlen = true) :
    (asciiz.length = 0 → jser_serialize_to_asciiz fuel j jlen pretty asciiz = (-1, asciiz)) ∧
    (1 ≤ asciiz.length →
      ((jser_serialize_to_asciiz fuel j jlen pretty asciiz).1 = JSER_OK →
        ∃ E : List Nat,
          (jser_serialize_to_asciiz fuel j jlen pretty asciiz).2
            = E ++ 0 :: asciiz.drop (E.length + 1) ∧
          E.length + 1 ≤ asciiz.length) ∧
      ((jser_serialize_to_asciiz fuel j jlen pretty asciiz).1 ≠ JSER_OK →
        (jser_serialize_to_asciiz fuel j jlen pretty asciiz).1 < 0 ∧
        ∃ t : List Nat, (jser_serialize_to_asciiz fuel j jlen pretty asciiz).2 = 0 :: t)) := by
  constructor
  · intro h0
    rw [jser_serialize_to_asciiz_eq, if_pos (by omega)]
  · intro h1
    rw [jser_serialize_to_asciiz_eq, if_neg (by omega)]
    have hinv := (ser_inv fuel).2.2 ⟨JSER_MAX_DEPTH, JSER_OK, pretty, false⟩ ⟨asciiz.length - 1, 0, []⟩ j jlen false 0 rfl hwf
    rcases hx : jsonify fuel ⟨JSER_MAX_DEPTH, JSER_OK, pretty, false⟩ j jlen ⟨asciiz.length - 1, 0, []⟩ false 0 with ⟨r, sp', b'⟩
    rw [hx] at hinv
    unfold SInv at hinv
    dsimp only at hinv ⊢
    obtain ⟨hst, -, -, hbound, -, hwet⟩ := hinv
    rcases hst with ⟨h10, -⟩ | ⟨hneg, -, herr⟩
    · rw [if_neg (by omega)]
      constructor
      · intro _
        refine ⟨b'.buf, ?_, ?_⟩
        · show overlay (b'.buf ++ [0]) asciiz = _
          unfold overlay
          rw [List.append_assoc]
          simp
        · obtain ⟨E, hE, hEn⟩ := hwet rfl
          have hb := hbound (by omega)
          have hbl : b'.buf.length = b'.used := by
            rw [hE]
            simp only [List.nil_append]
            omega
          omega
      · intro hne
        exact absurd rfl hne
    · rw [if_pos (by omega)]
      constructor
      · intro h0'
        have h0'' : sp'.error = 0 := h0'
        omega
      · intro _
        constructor
        · exact herr
        · rcases hov : overlay b'.buf asciiz with _ | ⟨a, t⟩
          · exfalso
            have hlen0 : (overlay b'.buf asciiz).length = 0 := by rw [hov]; rfl
            unfold overlay at hlen0
            simp only [List.length_append, List.length_drop] at hlen0
            omega
          · exact ⟨t, rfl⟩

/-- Witness for C10 at the zero-length destination. -/
theorem c10_asciiz_nul_behaviour_witness :
    treeOKj wfBuf 100 [mkLong "a" 5] 1 = true ∧
    jser_serialize_to_asciiz 100 [mkLong "a" 5] 1 false [] = (-1, []) :=
  ⟨by decide,
   (c10_asciiz_nul_behaviour 100 [mkLong "a" 5] 1 false [] (by decide)).1 rfl⟩

/-! ## The deserializer's frame property.

The key/value loop of `dejsonify` mutates the descriptor level only at
the indices it binds a matched key into — exactly the indices the ghost
output records.  Every other index keeps its prior descriptor. -/

theorem getD_set_ne {α : Type} (l : List α) (n k : Nat) (a d : α) (h : k ≠ n) :
    (l.set n a).getD k d = l.getD k d := by
  induction l generalizing n k with
  | nil => rfl
  | cons x xs ih =>
    cases n with
    | zero =>
      cases k with
      | zero => exact absurd rfl h
      | succ k => rfl
    | succ n =>
      cases k with
      | zero => rfl
      | succ k => exact ih n k (by omega)

theorem dejsonify_go_frame (fuel : Nat) :
    ∀ (sp : SOpts) (j : List Jser) (jlen : Nat) (token : List Token) (tokens : Nat)
      (json : List Nat) (i : Nat) (ghost : List Nat),
      ∃ g' : List Nat,
        (dejsonify_go fuel sp j jlen token tokens json i ghost).2.2.2 = ghost ++ g' ∧
        ∀ k : Nat, k ∉ g' →
          (dejsonify_go fuel sp j jlen token tokens json i ghost).2.2.1.getD k jser0
            = j.getD k jser0 := by
  induction fuel with
  | zero =>
    intro sp j jlen token tokens json i ghost
    exact ⟨[], by simp [dejsonify_go, on_error], fun k hk => rfl⟩
  | succ fuel ih =>
    intro sp j jlen token tokens json i ghost
    unfold dejsonify_go
    by_cases hi : i < tokens
    · rw [if_pos hi]
      dsimp only
      cases htt : (token.getD i token0).type with
      | UNDEFINED => exact ⟨[], by simp, fun k hk => rfl⟩
      | OBJECT => exact ⟨[], by simp [on_error], fun k hk => rfl⟩
      | ARRAY => exact ⟨[], by simp [on_error], fun k hk => rfl⟩
      | PRIMITIVE => exact ⟨[], by simp [on_error], fun k hk => rfl⟩
      | STRING =>
        dsimp only
        by_cases he : find_element j jlen json (token.getD i token0) < 0
        · rw [if_pos he]
          by_cases h2 : i + 1 ≥ tokens
          · rw [if_pos h2]
            exact ⟨[], by simp, fun k hk => rfl⟩
          · rw [if_neg h2]
            exact ih sp j jlen token tokens json _ ghost
        · rw [if_neg he]
          rcases hje : json_to_element fuel sp
              (j.getD (find_element j jlen json (token.getD i token0)).toNat
                (.mk [] 0 0 .LONG .null false))
              (token.drop (i + 1)) (tokens - i) json with ⟨increment, sp', e', g0⟩
          dsimp only
          by_cases hinc : increment < 1
          · rw [if_pos hinc]
            refine ⟨[(find_element j jlen json (token.getD i token0)).toNat],
              by simp [on_error], ?_⟩
            intro k hk
            simp only [List.mem_singleton] at hk
            exact getD_set_ne j _ k e' jser0 hk
          · rw [if_neg hinc]
            obtain ⟨g'', hg, hf⟩ := ih sp'
              (j.set (find_element j jlen json (token.getD i token0)).toNat e') jlen
              token tokens json (i + increment.toNat + 1)
              (ghost ++ [(find_element j jlen json (token.getD i token0)).toNat])
            refine ⟨(find_element j jlen json (token.getD i token0)).toNat :: g'', ?_, ?_⟩
            · rw [hg, List.append_assoc]
              rfl
            · intro k hk
              simp only [List.mem_cons] at hk
              push_neg at hk
              rw [hf k hk.2]
              exact getD_set_ne j _ k e' jser0 hk.1
    · rw [if_neg hi]
      exact ⟨[], by simp, fun k hk => rfl⟩

theorem dejsonify_frame (fuel : Nat) (sp : SOpts) (j : List Jser) (jlen : Nat)
    (token : List Token) (tokens : Nat) (json : List Nat) (k : Nat)
    (hk : k ∉ (dejsonify fuel sp j jlen token tokens json).2.2.2) :
    (dejsonify fuel sp j jlen token tokens json).2.2.1.getD k jser0 = j.getD k jser0 := by
  cases fuel with
  | zero => rfl
  | succ fuel =>
    unfold dejsonify at hk ⊢
    dsimp only at hk ⊢
    by_cases h0 : (token.getD 0 token0).type = JsmnType.UNDEFINED
    · rw [if_pos h0]
    · rw [if_neg h0] at hk ⊢
      by_cases h1 : (token.getD 0 token0).type ≠ JsmnType.OBJECT ∧
          (token.getD 0 token0).type ≠ JsmnType.ARRAY
      · rw [if_pos h1]
      · rw [if_neg h1] at hk ⊢
        obtain ⟨g', hg, hf⟩ := dejsonify_go_frame fuel sp j jlen token tokens json 1 []
        refine hf k ?_
        rw [hg] at hk
        simpa using hk

/-- The frame property at the public entry point: an index the binder
never bound (never recorded in the ghost output) keeps its prior
descriptor, whether the call succeeded or failed. -/
theorem jser_deserialize_frame (fuel : Nat) (j : List Jser) (jlen : Nat) (numTokens : Nat)
    (b : JserBuffer) (k : Nat)
    (hk : k ∉ (jser_deserialize_from_buffer fuel j jlen numTokens b).2.2) :
    (jser_deserialize_from_buffer fuel j jlen numTokens b).2.1.getD k jser0
      = j.getD k jser0 := by
  unfold jser_deserialize_from_buffer at hk ⊢
  rcases hp : jsmn_parse (b.buf.take b.used) numTokens with e | toks
  · cases e <;> rfl
  · rw [hp] at hk
    dsimp only at hk ⊢
    rcases hd : dejsonify fuel ⟨JSER_MAX_DEPTH, 0, false, false⟩ j jlen toks numTokens b.buf
      with ⟨r, sp', j', ghost⟩
    rw [hd] at hk
    dsimp only at hk ⊢
    have := dejsonify_frame fuel ⟨JSER_MAX_DEPTH, 0, false, false⟩ j jlen toks numTokens b.buf k
      (by rw [hd]; exact hk)
    rw [hd] at this
    exact this

set_option maxHeartbeats 4000000 in
/-- C4 counterexample: the general atomicity statement fails on the
descriptor the failure occurs on.  Deserializing the text mapping `a` to
9 and `buf` to the one-character string `!` (not valid base64) over the
descriptors `a` (long, prior 1) and `buf` (binary buffer, capacity 8,
occupied 3) fails with the base64 error, and the `buf` descriptor —
never successfully bound — does not retain its prior value: its occupied
count was reset to 0 before the failed bind (`a`, bound before the
failure, holds its new value 9). -/
theorem c4_failed_bind_clobbers_prior :
    (jser_deserialize_from_asciiz 1000
      [mkLong "a" 1, Jser.mk (strBytes "buf") 0 0 .BUFFER (.buf [⟨8, 3, [1, 2, 3]⟩]) false] 2 16
      (strBytes "\x7b\"a\":9,\"buf\":\"!\"\x7d")).1 = JSER_ERR_BASE64 ∧
    JSER_ERR_BASE64 < 0 ∧
    (((jser_deserialize_from_asciiz 1000
      [mkLong "a" 1, Jser.mk (strBytes "buf") 0 0 .BUFFER (.buf [⟨8, 3, [1, 2, 3]⟩]) false] 2 16
      (strBytes "\x7b\"a\":9,\"buf\":\"!\"\x7d")).2.1.getD 1 jser0).data.getBuf 0).used = 0 ∧
    ((Jser.mk (strBytes "buf") 0 0 .BUFFER (.buf [⟨8, 3, [1, 2, 3]⟩]) false).data.getBuf 0).used = 3 ∧
    (0 : Nat) ≠ 3 ∧
    ((jser_deserialize_from_asciiz 1000
      [mkLong "a" 1, Jser.mk (strBytes "buf") 0 0 .BUFFER (.buf [⟨8, 3, [1, 2, 3]⟩]) false] 2 16
      (strBytes "\x7b\"a\":9,\"buf\":\"!\"\x7d")).2.1.getD 0 jser0).data.getLd 0 = 9 := by
  decide

set_option maxHeartbeats 4000000 in
/-- C4 amended: deserializing the truncated text `\x7b"a":4` over the
longs `(a,b,c) = (1,2,3)` fails with the more-data error and leaves all
three values unchanged (the tokenizer rejects the input before any
binding); and in general, on success or on any failure, every descriptor
index the binder never bound — never recorded in the ghost output —
keeps its prior descriptor.  (The descriptor on which a bind *fails* may
be left modified: see the counterexample, where a buffer's occupied
count is reset to zero before the failed bind.) -/
theorem c4_partial_failure_amended :
    ((jser_deserialize_from_asciiz 1000 [mkLong "a" 1, mkLong "b" 2, mkLong "c" 3] 3 16
        (strBytes "\x7b\"a\":4")).1 = JSER_ERR_MORE_DAT ∧
      JSER_ERR_MORE_DAT < 0 ∧
      longsOf (jser_deserialize_from_asciiz 1000 [mkLong "a" 1, mkLong "b" 2, mkLong "c" 3] 3 16
        (strBytes "\x7b\"a\":4")).2.1 = [1, 2, 3]) ∧
    (∀ (fuel : Nat) (j : List Jser) (jlen numTokens : Nat) (b : JserBuffer) (k : Nat),
      k ∉ (jser_deserialize_from_buffer fuel j jlen numTokens b).2.2 →
      (jser_deserialize_from_buffer fuel j jlen numTokens b).2.1.getD k jser0
        = j.getD k jser0) :=
  ⟨by decide, jser_deserialize_frame⟩

set_option maxHeartbeats 4000000 in
/-- Witness for the amended C4's frame property at a concrete input. -/
theorem c4_partial_failure_amended_witness :
    (1 : Nat) ∉ (jser_deserialize_from_buffer 1000 [mkLong "a" 1, mkLong "b" 2, mkLong "c" 3] 3 16
      ⟨6, 6, strBytes "\x7b\"a\":4"⟩).2.2 ∧
    (jser_deserialize_from_buffer 1000 [mkLong "a" 1, mkLong "b" 2, mkLong "c" 3] 3 16
      ⟨6, 6, strBytes "\x7b\"a\":4"⟩).2.1.getD 1 jser0
      = [mkLong "a" 1, mkLong "b" 2, mkLong "c" 3].getD 1 jser0 :=
  ⟨by decide,
   c4_partial_failure_amended.2 1000 [mkLong "a" 1, mkLong "b" 2, mkLong "c" 3] 3 16
     ⟨6, 6, strBytes "\x7b\"a\":4"⟩ 1 (by decide)⟩

end Jser
